import Mathlib

/-!
Verification of the Scaling, Binning and Layout Engine of the `what`
repository (`gwhat/hydrograph4.py`).

The Python source is shallowly embedded: arrays become `List ℚ` (the NaN
missing-data sentinel of a float array becomes `none` in `List (Option ℚ)`),
float arithmetic becomes exact rational arithmetic, and fallible code
(numpy reductions over empty arrays, `xlrd` date errors) returns `Option`.
The only real-valued model is the tick-label offset, which involves
`sin (45°)`.
-/

namespace What

/-- Model of `np.min` over a (non-empty) array; `np.min` of an empty float
array raises, callers below guard the empty case, the `[]` value here is
arbitrary. -/
def npmin : List ℚ → ℚ
  | [] => 0
  | [a] => a
  | a :: b :: t => min a (npmin (b :: t))

/-- Model of `np.max` over a (non-empty) array. -/
def npmax : List ℚ → ℚ
  | [] => 0
  | [a] => a
  | a :: b :: t => max a (npmax (b :: t))

/-- `SCALE = np.hstack((np.arange(0.05, 0.30, 0.05), np.arange(0.3, 5.1, 0.1)))`
from `best_fit_waterlvl` (hydrograph4.py line 755): the candidate steps
0.05, 0.10, 0.15, 0.20, 0.25, then 0.3, 0.4, ..., 5.0. -/
def SCALE : List ℚ :=
  (List.range 5).map (fun k => ((k : ℚ) + 1) * (5 / 100))
    ++ (List.range 48).map (fun k => 3 / 10 + (k : ℚ) * (1 / 10))

/-- `np.min(dSCALE)` where `dSCALE = np.abs(SCALE - target)`. -/
def dSCALEmin (target : ℚ) : ℚ := npmin (SCALE.map (fun c => |c - target|))

/-- `SCALE[np.where(dSCALE == np.min(dSCALE))[0][0]]`: the first candidate
whose distance to the target equals the minimal distance. -/
def pickScale (target : ℚ) : Option ℚ :=
  SCALE.find? (fun c => |c - target| = dSCALEmin target)

/-- Core of `best_fit_waterlvl` (hydrograph4.py lines 750-772) once the
non-NaN values have been reduced to their max `mx` and min `mn`:
`dWL = max - min`, `ygrid = NZGrid - 5`, the step is the first candidate of
`SCALE` at minimal distance from `dWL / ygrid`, and
`WLmin = WLscale * N` with `N = ceil(max/WLscale)` for `WLdatum = 0` (mbgs)
and `N = floor(min/WLscale)` for `WLdatum = 1` (masl); any other value of
`WLdatum` leaves `N` unbound in the source (a `NameError`), hence `none`. -/
def best_fit_core (mx mn : ℚ) (WLdatum : ℤ) (NZGrid : ℤ) : Option (ℚ × ℚ) :=
  let dWL := mx - mn
  let ygrid : ℚ := (NZGrid : ℚ) - 5
  (pickScale (dWL / ygrid)).bind fun WLscale =>
    if WLdatum = 0 then some (WLscale, WLscale * (⌈mx / WLscale⌉ : ℤ))
    else if WLdatum = 1 then some (WLscale, WLscale * (⌊mn / WLscale⌋ : ℤ))
    else none

/-- `best_fit_waterlvl` (hydrograph4.py lines 744-772), on the water-level
array after the datum adjustment of lines 746-747 (for masl the caller feeds
`Elevation - WL`).  `WL = WL[~np.isnan(WL)]` is the `filterMap id`; on an
all-NaN or empty array `np.max(WL)` raises a `ValueError` (`none` here, the
`NoData` condition), so no scale is produced.  Returns `(WLscale, WLmin)`. -/
def best_fit_waterlvl (WL : List (Option ℚ)) (WLdatum : ℤ) (NZGrid : ℤ) :
    Option (ℚ × ℚ) :=
  match WL.filterMap id with
  | [] => none
  | v :: vs => best_fit_core (npmax (v :: vs)) (npmin (v :: vs)) WLdatum NZGrid

/-- `set_margins` (hydrograph4.py lines 606-637), the margin block: returns
`(left, right, bottom, top)` margins as fractions of the figure dimensions,
each computed as a fixed size in inches divided by `fwidth`/`fheight`.
`isGraphTitle == 1 or isLegend == 1` is modelled by two booleans. -/
def set_margins (fwidth fheight : ℚ) (meteo_on isGraphTitle isLegend : Bool) :
    ℚ × ℚ × ℚ × ℚ :=
  let left_margin := 85 / 100 / fwidth
  let right_margin := if meteo_on = false then 15 / 100 / fwidth
                      else 85 / 100 / fwidth
  let bottom_margin := 6 / 10 / fheight
  let top_margin := 25 / 100 / fheight
  let top_margin := if isGraphTitle || isLegend then
                      (if meteo_on = false then top_margin + 2 / 10 / fheight
                       else top_margin + 45 / 100 / fheight)
                    else top_margin
  (left_margin, right_margin, bottom_margin, top_margin)

/-- `bin_sum` (hydrograph4.py lines 823-836): sums `x` over contiguous bins
of width `bwidth` starting at index 0; the incomplete trailing bin is
dropped (`nbin = floor(len(x)/bwidth)`, reshape to `nbin × bwidth`, sum each
row). -/
def bin_sum (x : List ℚ) (bwidth : ℕ) : List ℚ :=
  let nbin := x.length / bwidth
  (List.range nbin).map (fun i => (((x.drop (i * bwidth)).take bwidth).foldl (· + ·) 0))

/-! ### Calendar model

`best_fit_time` and `make_xticks_info` use the external `xlrd` codec for
the Excel 1900 day-number encoding (`xldate_as_tuple`, datemode 0, and
`xldate_from_date_tuple`) together with `calendar.monthrange`.  For day
numbers `n ≥ 61` (dates from 1900-03-01 on) the encoding is exactly
"days since 1899-12-30" over the proleptic Gregorian calendar; for
`n < 61` (datemode 0) `xlrd` raises `XLDateAmbiguous`, modelled as `none`.
The year range check of `xlrd` (`1900 ≤ y ≤ 9999`) is carried as a
hypothesis of the theorems instead of being baked into the encoder. -/

/-- Gregorian leap-year predicate (`calendar.isleap`:
`year % 4 == 0 and (year % 100 != 0 or year % 400 == 0)`). -/
def isLeap (y : ℕ) : Bool :=
  decide (y % 4 = 0 ∧ (y % 100 ≠ 0 ∨ y % 400 = 0))

/-- `calendar.monthrange(y, m)[1]`: number of days of month `m` of year
`y`, months numbered 1-12 (0 for out-of-range months, which raise in
Python). -/
def daysInMonth (y m : ℕ) : ℕ :=
  match m with
  | 1 => 31 | 2 => if isLeap y then 29 else 28 | 3 => 31 | 4 => 30
  | 5 => 31 | 6 => 30 | 7 => 31 | 8 => 31 | 9 => 30 | 10 => 31
  | 11 => 30 | 12 => 31 | _ => 0

/-- Days of year `y` strictly before month `m` (so `daysBeforeMonth y 1 = 0`). -/
def daysBeforeMonth (y : ℕ) : ℕ → ℕ
  | 0 => 0
  | m + 1 => daysBeforeMonth y m + daysInMonth y m

/-- Number of days of year `y` (365 or 366). -/
def yearDays (y : ℕ) : ℕ := daysBeforeMonth y 13

/-- Days strictly before January 1st of year `y` counted from the epoch
0001-01-01 of the proleptic Gregorian calendar. -/
def daysBeforeYear (y : ℕ) : ℕ :=
  365 * (y - 1) + (y - 1) / 4 + (y - 1) / 400 - (y - 1) / 100

/-- Rata-die day number of the Gregorian date `(y, m, d)`:
`rataDie 1 1 1 = 1`. -/
def rataDie (y m d : ℕ) : ℕ := daysBeforeYear y + daysBeforeMonth y m + d

/-- Rata-die day number of 1899-12-30, the origin of the Excel 1900
day-number encoding for serials `≥ 61`. -/
def xlEpoch : ℕ := rataDie 1899 12 30

/-- `xlrd.xldate_from_date_tuple((y, m, d), 0)` for dates with serial
`≥ 61` (i.e. from 1900-03-01 on): days since 1899-12-30.  (`xlrd` also
validates `1900 ≤ y ≤ 9999` and raises `XLDateAmbiguous` below serial 61;
these bounds appear as hypotheses of the theorems.) -/
def xldate_from_date_tuple (y m d : ℕ) : ℕ := rataDie y m d - xlEpoch

/-- Year lookup for decoding: starting at year `y` with `d` the 1-based
day offset inside the remaining period, subtract whole years. -/
def findYear : ℕ → ℕ → ℕ → ℕ × ℕ
  | 0, y, d => (y, d)
  | fuel + 1, y, d =>
    if d ≤ yearDays y then (y, d) else findYear fuel (y + 1) (d - yearDays y)

/-- Month lookup for decoding: starting at month `m` of year `y` with `d`
the 1-based day offset inside the remaining months, subtract whole months. -/
def findMonth : ℕ → ℕ → ℕ → ℕ → ℕ × ℕ
  | 0, _, m, d => (m, d)
  | fuel + 1, y, m, d =>
    if d ≤ daysInMonth y m then (m, d)
    else findMonth fuel y (m + 1) (d - daysInMonth y m)

/-- `xlrd.xldate_as_tuple(n, 0)` restricted to the date part: serial
`n < 61` raises `XLDateAmbiguous` (`none`); otherwise serial `n` is day
`n - 1` of the period starting 1900-01-01 (serial 2 = 1900-01-01). -/
def xldate_as_tuple (n : ℕ) : Option (ℕ × ℕ × ℕ) :=
  if n < 61 then none
  else
    let p := findYear n 1900 (n - 1)
    let q := findMonth 12 p.1 1 p.2
    some (p.1, q.1, q.2)

/-- Validity of a `(y, m, d)` Gregorian date tuple. -/
def validTup (y m d : ℕ) : Prop :=
  1 ≤ m ∧ m ≤ 12 ∧ 1 ≤ d ∧ d ≤ daysInMonth y m

instance validTup_decidable (y m d : ℕ) : Decidable (validTup y m d) :=
  inferInstanceAs (Decidable (1 ≤ m ∧ m ≤ 12 ∧ 1 ≤ d ∧ d ≤ daysInMonth y m))

/-- `best_fit_time` (hydrograph4.py lines 774-797): `date0` is the first
day of the month of `TIME[0]`, `date1` the first day of the month after the
month of `TIME[-1]` (December wraps to January of the next year).  An empty
`TIME` (`TIME[0]` raising `IndexError`) or an ambiguous serial is `none`.
Returns the `(date0, date1)` tuples of the source. -/
def best_fit_time (TIME : List ℕ) : Option ((ℕ × ℕ × ℕ) × (ℕ × ℕ × ℕ)) :=
  match TIME with
  | [] => none
  | t0 :: rest =>
    (xldate_as_tuple t0).bind fun date0 =>
      (xldate_as_tuple ((t0 :: rest).getLast (by simp))).bind fun date1 =>
        let month := date1.2.1 + 1
        let date1' := if month > 12 then (date1.1 + 1, 1, 1)
                      else (date1.1, month, 1)
        some ((date0.1, date0.2.1, 1), date1')

/-- The serial bounds `(TIMEmin, TIMEmax)` set by `best_fit_time`
(`xldate_from_date_tuple` of the two returned tuples). -/
def best_fit_time_serials (TIME : List ℕ) : Option (ℕ × ℕ) :=
  (best_fit_time TIME).map (fun r =>
    (xldate_from_date_tuple r.1.1 r.1.2.1 r.1.2.2,
     xldate_from_date_tuple r.2.1 r.2.2.1 r.2.2.2))

/-! ### Tick generation -/

/-- Python `str.lower()` restricted to the ASCII identifiers it is applied
to in the source (`language`, `datemode`). -/
def str_lower (s : String) : String := String.mk (s.data.map Char.toLower)

/-- `LabelDatabase(language).month_names` (hydrograph4.py lines 50-51 and
68-69): the English table, replaced by the French one when
`language.lower() == 'french'`. -/
def month_names (language : String) : List String :=
  if str_lower language = "french" then
    ["JAN", "FÉV", "MAR", "AVR", "MAI", "JUN",
     "JUL", "AOÛ", "SEP", "OCT", "NOV", "DÉC"]
  else
    ["JAN", "FEB", "MAR", "APR", "MAY", "JUN",
     "JUL", "AUG", "SEP", "OCT", "NOV", "DEC"]

/-- The major-tick label of `make_xticks_info`:
`"{} \x27{}".format(month_names[month - 1], str(year)[-2:])` for month
mode. -/
def month_label (language : String) (y m : ℕ) : String :=
  (month_names language).getD (m - 1) "" ++ " \x27" ++ (toString y).takeRight 2

/-- The calendar walk of `make_xticks_info` (hydrograph4.py lines
1187-1213): starting at `pos` with step counter `i`, each iteration decodes
`pos`, records a minor tick, records a major tick with its label when
`i % pattern == 0`, then advances `pos` by the length of the current month
(month mode) or to January 1st of the next year (year mode), stopping once
the advanced position exceeds `TIMEmax`.  Returns
`(xticks_position, xticks_labels, xticks_minor_position)`; the source's
`xticks_labels_position` is `xticks_position` shifted by the constant
real-valued offset modelled separately below.  The recursion is driven by
an explicit fuel (the source's `while True` loop terminates because the
position strictly increases; an invalid `datemode`, which loops forever in
the source, exhausts the fuel and is `none`). -/
def make_xticks_aux (TIMEmax pattern : ℕ) (datemode language : String) :
    ℕ → ℕ → ℕ → Option (List ℕ × List String × List ℕ)
  | 0, _, _ => none
  | fuel + 1, pos, i =>
    (xldate_as_tuple pos).bind fun dt =>
      let year := dt.1
      let month := dt.2.1
      let month_range := daysInMonth year month
      let isMaj := i % pattern = 0
      let lab := if str_lower datemode = "month" then month_label language year month
                 else toString year
      let next_pos := if str_lower datemode = "month" then pos + month_range
                      else if str_lower datemode = "year" then
                        xldate_from_date_tuple (year + 1) 1 1
                      else pos
      if next_pos > TIMEmax then
        some (if isMaj then ([pos], [lab], [pos]) else ([], [], [pos]))
      else
        (make_xticks_aux TIMEmax pattern datemode language fuel next_pos
          (i + 1)).bind fun r =>
          some (if isMaj then (pos :: r.1, lab :: r.2.1, pos :: r.2.2)
                else (r.1, r.2.1, pos :: r.2.2))

/-- `make_xticks_info` (hydrograph4.py lines 1140-1216), tick-walk part:
the loop of `make_xticks_aux` started at `TIMEmin` with `i = 0`.  The fuel
`TIMEmax + 2 - TIMEmin` is an over-approximation of the iteration count
(every iteration advances the position by at least one day). -/
def make_xticks_info (TIMEmin TIMEmax pattern : ℕ) (datemode language : String) :
    Option (List ℕ × List String × List ℕ) :=
  make_xticks_aux TIMEmax pattern datemode language (TIMEmax + 2 - TIMEmin) TIMEmin 0

/-- The month reached from `(y, m)` after `k` one-month calendar steps. -/
def addMonths (y m k : ℕ) : ℕ × ℕ :=
  (y + (m - 1 + k) / 12, (m - 1 + k) % 12 + 1)

/-- Number of one-month calendar steps from `(y0, m0)` to `(y1, m1)`,
both ends included. -/
def monthSteps (y0 m0 y1 m1 : ℕ) : ℕ := 12 * y1 + m1 - (12 * y0 + m0) + 1

/-- The label offset computation of `make_xticks_info` (hydrograph4.py
lines 1154-1176): `dx = bbox.height * sin(radians(45))` for the measured
text bounding box, `sdx = dx * bbox.height / bbox.width` for the axes
bounding box in inches, then `sdx *= (TIMEmax - TIMEmin + 1)`. -/
noncomputable def xticks_labels_offset
    (textHeight axHeight axWidth TIMEmin TIMEmax : ℝ) : ℝ :=
  let dx := textHeight * Real.sin (Real.pi / 4)
  let sdx := dx * axHeight / axWidth
  sdx * (TIMEmax - TIMEmin + 1)

/-- Modelled from the spec (claim formula for the offset): glyph box height
times `sin 45°`, rescaled by the panel aspect ratio and by the time span
`endDate - startDate` in days. -/
noncomputable def offset_spec_formula (h H W t0 t1 : ℝ) : ℝ :=
  h * Real.sin (Real.pi / 4) * (H / W) * (t1 - t0)

/-- `resample_bin` (hydrograph4.py lines 799-815): picks
`bwidth = [1, 7, 30, 365][bwidth_indx]`; for `bwidth_indx = 0` each series
is copied unchanged, otherwise the MEAN-kind series (timestamp, max
temperature) become `bin_sum(x, bwidth) / bwidth` and the SUM-kind series
(precipitation, rain) become `bin_sum(x, bwidth)`.  Returns
`(bwidth, bTIME, bTMAX, bPTOT, bRAIN)`. -/
def resample_bin (bwidth_indx : ℕ) (TIMEmeteo TMAX PTOT RAIN : List ℚ) :
    ℕ × List ℚ × List ℚ × List ℚ × List ℚ :=
  let bwidth := [1, 7, 30, 365].getD bwidth_indx 0
  if bwidth_indx = 0 then
    (bwidth, TIMEmeteo, TMAX, PTOT, RAIN)
  else
    (bwidth,
     (bin_sum TIMEmeteo bwidth).map (fun v => v / (bwidth : ℚ)),
     (bin_sum TMAX bwidth).map (fun v => v / (bwidth : ℚ)),
     bin_sum PTOT bwidth,
     bin_sum RAIN bwidth)

/-- Spec-side comparison definition for the binning claim: window `i` of
the partition of the first `floor(L/widthDays)*widthDays` samples into
contiguous non-overlapping windows of `widthDays` samples. -/
def spec_window (x : List ℚ) (w i : ℕ) : List ℚ :=
  ((x.take (x.length / w * w)).drop (i * w)).take w

/-! ## Lemmas about the array minimum and maximum -/

theorem npmin_mem : ∀ (l : List ℚ), l ≠ [] → npmin l ∈ l
  | [], h => absurd rfl h
  | [a], _ => by simp [npmin]
  | a :: b :: t, _ => by
    have ih := npmin_mem (b :: t) (by simp)
    rcases le_total a (npmin (b :: t)) with h | h
    · simp [npmin, min_eq_left h]
    · simp only [npmin, min_eq_right h]
      exact List.mem_cons_of_mem a ih

theorem npmin_le : ∀ (l : List ℚ), ∀ x ∈ l, npmin l ≤ x
  | [a], x, hx => by simp_all [npmin]
  | a :: b :: t, x, hx => by
    rcases List.mem_cons.mp hx with rfl | hx
    · simp [npmin]
    · exact le_trans (by simp [npmin]) (npmin_le (b :: t) x hx)

theorem npmax_mem : ∀ (l : List ℚ), l ≠ [] → npmax l ∈ l
  | [], h => absurd rfl h
  | [a], _ => by simp [npmax]
  | a :: b :: t, _ => by
    have ih := npmax_mem (b :: t) (by simp)
    rcases le_total a (npmax (b :: t)) with h | h
    · simp only [npmax, max_eq_right h]
      exact List.mem_cons_of_mem a ih
    · simp [npmax, max_eq_left h]

theorem le_npmax : ∀ (l : List ℚ), ∀ x ∈ l, x ≤ npmax l
  | [a], x, hx => by simp_all [npmax]
  | a :: b :: t, x, hx => by
    rcases List.mem_cons.mp hx with rfl | hx
    · simp [npmax]
    · exact le_trans (le_npmax (b :: t) x hx) (by simp [npmax])

theorem npmin_le_npmax (l : List ℚ) (h : l ≠ []) : npmin l ≤ npmax l :=
  le_trans (npmin_le l _ (npmax_mem l h)) le_rfl

/-! ## The candidate step set -/

theorem SCALE_eq : SCALE = [1/20, 2/20, 3/20, 4/20, 5/20,
    3/10, 4/10, 5/10, 6/10, 7/10, 8/10, 9/10, 10/10, 11/10, 12/10,
    13/10, 14/10, 15/10, 16/10, 17/10, 18/10, 19/10, 20/10, 21/10, 22/10,
    23/10, 24/10, 25/10, 26/10, 27/10, 28/10, 29/10, 30/10, 31/10, 32/10,
    33/10, 34/10, 35/10, 36/10, 37/10, 38/10, 39/10, 40/10, 41/10, 42/10,
    43/10, 44/10, 45/10, 46/10, 47/10, 48/10, 49/10, 50/10] := by
  norm_num [SCALE, List.range_succ]

theorem SCALE_chain : SCALE.Chain' (· ≤ ·) := by
  rw [SCALE_eq]
  norm_num [List.chain'_cons]

theorem SCALE_sorted : SCALE.Pairwise (· ≤ ·) :=
  List.chain'_iff_pairwise.mp SCALE_chain

theorem SCALE_bounds : ∀ c ∈ SCALE, 1/20 ≤ c ∧ c ≤ 5 := by
  rw [SCALE_eq]
  simp only [List.forall_mem_cons, List.forall_mem_nil]
  norm_num

theorem SCALE_ne_nil : SCALE ≠ [] := by rw [SCALE_eq]; simp

theorem five_mem_SCALE : (5 : ℚ) ∈ SCALE := by rw [SCALE_eq]; norm_num

theorem one_twentieth_mem_SCALE : (1/20 : ℚ) ∈ SCALE := by
  rw [SCALE_eq]; norm_num

/-- In a `≤`-sorted list, `find?` returns a least element among those
satisfying the predicate. -/
theorem find?_first_sorted {p : ℚ → Bool} :
    ∀ (l : List ℚ), l.Pairwise (· ≤ ·) → ∀ x, l.find? p = some x →
      ∀ y ∈ l, p y → x ≤ y
  | [], _, x, hf => by simp at hf
  | a :: t, hs, x, hf => by
    intro y hy hpy
    rcases List.pairwise_cons.mp hs with ⟨ha, ht⟩
    cases hpa : p a with
    | true =>
      rw [List.find?_cons_of_pos _ hpa] at hf
      obtain rfl : a = x := by injection hf
      rcases List.mem_cons.mp hy with rfl | hy
      · exact le_rfl
      · exact ha y hy
    | false =>
      rw [List.find?_cons_of_neg _ (by simp [hpa])] at hf
      rcases List.mem_cons.mp hy with rfl | hy
      · rw [hpy] at hpa; cases hpa
      · exact find?_first_sorted t ht x hf y hy hpy

/-! ## The step picked by `best_fit_waterlvl` -/

theorem dSCALEmin_le (target : ℚ) : ∀ c ∈ SCALE, dSCALEmin target ≤ |c - target| := by
  intro c hc
  exact npmin_le _ _ (List.mem_map_of_mem _ hc)

theorem pickScale_isSome (target : ℚ) : ∃ s, pickScale target = some s := by
  have hne : SCALE.map (fun c => |c - target|) ≠ [] := by
    simp [SCALE_ne_nil]
  obtain ⟨c, hc, hceq⟩ := List.mem_map.mp (npmin_mem _ hne)
  have : ∃ c ∈ SCALE, (fun c => decide (|c - target| = dSCALEmin target)) c = true := by
    exact ⟨c, hc, by simp [dSCALEmin, hceq]⟩
  obtain ⟨s, hs⟩ := Option.isSome_iff_exists.mp (List.find?_isSome.mpr this)
  exact ⟨s, hs⟩

theorem pickScale_mem {target s : ℚ} (h : pickScale target = some s) : s ∈ SCALE :=
  List.mem_of_find?_eq_some h

theorem pickScale_dist {target s : ℚ} (h : pickScale target = some s) :
    |s - target| = dSCALEmin target := by
  have := List.find?_some h
  simpa using this

theorem pickScale_min {target s : ℚ} (h : pickScale target = some s) :
    ∀ c ∈ SCALE, |s - target| ≤ |c - target| := by
  intro c hc
  rw [pickScale_dist h]
  exact dSCALEmin_le target c hc

theorem pickScale_tie_lowest {target s : ℚ} (h : pickScale target = some s) :
    ∀ c ∈ SCALE, |c - target| = |s - target| → s ≤ c := by
  intro c hc heq
  exact find?_first_sorted SCALE SCALE_sorted s h c hc
    (by simp [heq, pickScale_dist h])

theorem pickScale_of_five_le {target s : ℚ} (ht : 5 ≤ target)
    (hs : pickScale target = some s) : s = 5 := by
  have hmin := pickScale_min hs 5 five_mem_SCALE
  have hb := (SCALE_bounds s (pickScale_mem hs)).2
  rw [abs_of_nonpos (by linarith), abs_of_nonpos (by linarith)] at hmin
  linarith

theorem pickScale_of_le_twentieth {target s : ℚ} (ht : target ≤ 1/20)
    (hs : pickScale target = some s) : s = 1/20 := by
  have hmin := pickScale_min hs (1/20) one_twentieth_mem_SCALE
  have hb := (SCALE_bounds s (pickScale_mem hs)).1
  rw [abs_of_nonneg (by linarith), abs_of_nonneg (by linarith)] at hmin
  linarith

/-! ## `best_fit_waterlvl` reduced to its core -/

theorem best_fit_waterlvl_cons {WL : List (Option ℚ)} {v : ℚ} {vs : List ℚ}
    (hW : WL.filterMap id = v :: vs) (datum NZGrid : ℤ) :
    best_fit_waterlvl WL datum NZGrid
      = best_fit_core (npmax (v :: vs)) (npmin (v :: vs)) datum NZGrid := by
  simp [best_fit_waterlvl, hW]

theorem best_fit_core_eq {datum : ℤ} (mx mn : ℚ) (NZGrid : ℤ)
    (hd : datum = 0 ∨ datum = 1) {s : ℚ}
    (hs : pickScale ((mx - mn) / ((NZGrid : ℚ) - 5)) = some s) :
    best_fit_core mx mn datum NZGrid
      = some (s, if datum = 0 then s * (⌈mx / s⌉ : ℤ) else s * (⌊mn / s⌋ : ℤ)) := by
  have h : best_fit_core mx mn datum NZGrid
      = (pickScale ((mx - mn) / ((NZGrid : ℚ) - 5))).bind fun WLscale =>
          if datum = 0 then some (WLscale, WLscale * (⌈mx / WLscale⌉ : ℤ))
          else if datum = 1 then some (WLscale, WLscale * (⌊mn / WLscale⌋ : ℤ))
          else none := rfl
  rw [h, hs]
  rcases hd with rfl | rfl <;> simp

/-- **C1**: for non-empty (after NaN filtering) values and
`gridDivisions - 5 ≥ 1`, the step returned by `best_fit_waterlvl` is the
candidate of the ascending set `SCALE` minimizing the distance to
`target = (max - min) / (gridDivisions - 5)`, with ties broken by the
lowest-valued candidate. -/
theorem best_fit_waterlvl_step_minimizes
    (WL : List (Option ℚ)) (datum NZGrid : ℤ) (v : ℚ) (vs : List ℚ)
    (hW : WL.filterMap id = v :: vs)
    (hd : datum = 0 ∨ datum = 1)
    (hg : 1 ≤ NZGrid - 5) :
    ∃ s o, best_fit_waterlvl WL datum NZGrid = some (s, o) ∧ s ∈ SCALE ∧
      (∀ c ∈ SCALE,
        |s - (npmax (v :: vs) - npmin (v :: vs)) / ((NZGrid : ℚ) - 5)|
          ≤ |c - (npmax (v :: vs) - npmin (v :: vs)) / ((NZGrid : ℚ) - 5)|) ∧
      (∀ c ∈ SCALE,
        |c - (npmax (v :: vs) - npmin (v :: vs)) / ((NZGrid : ℚ) - 5)|
          = |s - (npmax (v :: vs) - npmin (v :: vs)) / ((NZGrid : ℚ) - 5)| →
        s ≤ c) := by
  obtain ⟨s, hs⟩ :=
    pickScale_isSome ((npmax (v :: vs) - npmin (v :: vs)) / ((NZGrid : ℚ) - 5))
  refine ⟨s, if datum = 0 then s * (⌈npmax (v :: vs) / s⌉ : ℤ)
             else s * (⌊npmin (v :: vs) / s⌋ : ℤ),
    ?_, pickScale_mem hs, pickScale_min hs, pickScale_tie_lowest hs⟩
  rw [best_fit_waterlvl_cons hW, best_fit_core_eq _ _ _ hd hs]

set_option maxHeartbeats 1600000 in
/-- Witness for the step-minimization theorem: values spanning `[0, 10]`
with `gridDivisions = 8` give `target = 10/3` and the fitted step `3.3`. -/
theorem best_fit_waterlvl_step_minimizes_witness :
    (∃ s o, best_fit_waterlvl [some 0, some 10] 0 8 = some (s, o) ∧ s ∈ SCALE ∧
      (∀ c ∈ SCALE,
        |s - (npmax ((0:ℚ) :: [10]) - npmin ((0:ℚ) :: [10])) / (((8:ℤ) : ℚ) - 5)|
          ≤ |c - (npmax ((0:ℚ) :: [10]) - npmin ((0:ℚ) :: [10])) / (((8:ℤ) : ℚ) - 5)|) ∧
      (∀ c ∈ SCALE,
        |c - (npmax ((0:ℚ) :: [10]) - npmin ((0:ℚ) :: [10])) / (((8:ℤ) : ℚ) - 5)|
          = |s - (npmax ((0:ℚ) :: [10]) - npmin ((0:ℚ) :: [10])) / (((8:ℤ) : ℚ) - 5)| →
        s ≤ c)) ∧
    best_fit_waterlvl [some 0, some 10] 0 8 = some (33/10, 66/5) := by
  constructor
  · exact best_fit_waterlvl_step_minimizes [some 0, some 10] 0 8 0 [10]
      rfl (Or.inl rfl) (by norm_num)
  · have hmx : npmax ((0:ℚ) :: [10]) = 10 := by norm_num [npmax]
    have hmn : npmin ((0:ℚ) :: [10]) = 0 := by norm_num [npmin]
    have hp : pickScale ((10 - (0:ℚ)) / (((8:ℤ) : ℚ) - 5)) = some (33/10) := by
      have ht : (10 - (0:ℚ)) / (((8:ℤ) : ℚ) - 5) = 10/3 := by norm_num
      rw [ht]
      have hdm : dSCALEmin (10/3 : ℚ) = 1/30 := by
        norm_num [dSCALEmin, SCALE, List.range_succ, npmin, min_def, abs]
      norm_num [pickScale, hdm, SCALE, List.range_succ, List.find?, abs]
    have hW : List.filterMap id [some (0:ℚ), some 10] = [0, 10] := by simp
    rw [best_fit_waterlvl_cons hW 0 8, hmx, hmn,
      best_fit_core_eq 10 0 8 (Or.inl rfl) hp]
    have hc : (⌈(100 : ℚ) / 33⌉ : ℤ) = 4 := by
      rw [Int.ceil_eq_iff] <;> norm_num
    norm_num [hc]

/-- **C5**: the origin returned by `best_fit_waterlvl` is
`step * ceil(max/step)` in the below-surface orientation (`WLdatum = 0`)
and `step * floor(min/step)` in the above-reference orientation
(`WLdatum = 1`); in both cases it is an exact integer multiple of the
step. -/
theorem best_fit_waterlvl_origin_aligned
    (WL : List (Option ℚ)) (datum NZGrid : ℤ) (v : ℚ) (vs : List ℚ)
    (hW : WL.filterMap id = v :: vs)
    (hd : datum = 0 ∨ datum = 1) :
    ∃ s o, best_fit_waterlvl WL datum NZGrid = some (s, o) ∧
      (datum = 0 → o = s * (⌈npmax (v :: vs) / s⌉ : ℤ)) ∧
      (datum = 1 → o = s * (⌊npmin (v :: vs) / s⌋ : ℤ)) ∧
      ∃ k : ℤ, o = (k : ℚ) * s := by
  obtain ⟨s, hs⟩ :=
    pickScale_isSome ((npmax (v :: vs) - npmin (v :: vs)) / ((NZGrid : ℚ) - 5))
  have hb := best_fit_waterlvl_cons hW datum NZGrid
  rw [best_fit_core_eq _ _ _ hd hs] at hb
  rcases hd with rfl | rfl
  · refine ⟨s, s * (⌈npmax (v :: vs) / s⌉ : ℤ), by simpa using hb, ?_, ?_, ?_⟩
    · intro _; rfl
    · intro h; exact absurd h (by decide)
    · exact ⟨⌈npmax (v :: vs) / s⌉, mul_comm _ _⟩
  · refine ⟨s, s * (⌊npmin (v :: vs) / s⌋ : ℤ), by simpa using hb, ?_, ?_, ?_⟩
    · intro h; exact absurd h (by decide)
    · intro _; rfl
    · exact ⟨⌊npmin (v :: vs) / s⌋, mul_comm _ _⟩

set_option maxHeartbeats 1600000 in
/-- Witness for the origin theorem: values `{1, 4}` in the above-reference
orientation with step `1` give origin `1 = 1 * floor(1/1)`. -/
theorem best_fit_waterlvl_origin_aligned_witness :
    (∃ s o, best_fit_waterlvl [some 4, some 1] 1 8 = some (s, o) ∧
      ((1:ℤ) = 0 → o = s * (⌈npmax ((4:ℚ) :: [1]) / s⌉ : ℤ)) ∧
      ((1:ℤ) = 1 → o = s * (⌊npmin ((4:ℚ) :: [1]) / s⌋ : ℤ)) ∧
      ∃ k : ℤ, o = (k : ℚ) * s) ∧
    best_fit_waterlvl [some 4, some 1] 1 8 = some (1, 1) := by
  constructor
  · exact best_fit_waterlvl_origin_aligned [some 4, some 1] 1 8 4 [1]
      rfl (Or.inr rfl)
  · have hmx : npmax ((4:ℚ) :: [1]) = 4 := by norm_num [npmax]
    have hmn : npmin ((4:ℚ) :: [1]) = 1 := by norm_num [npmin]
    have hp : pickScale ((4 - (1:ℚ)) / (((8:ℤ) : ℚ) - 5)) = some 1 := by
      have ht : (4 - (1:ℚ)) / (((8:ℤ) : ℚ) - 5) = 1 := by norm_num
      rw [ht]
      have hdm : dSCALEmin (1 : ℚ) = 0 := by
        norm_num [dSCALEmin, SCALE, List.range_succ, npmin, min_def, abs]
      norm_num [pickScale, hdm, SCALE, List.range_succ, List.find?, abs]
    have hW : List.filterMap id [some (4:ℚ), some 1] = [4, 1] := by simp
    rw [best_fit_waterlvl_cons hW 1 8, hmx, hmn,
      best_fit_core_eq 4 1 8 (Or.inr rfl) hp]
    norm_num

/-- **C7**: on an input that is empty or all-NaN (so that nothing remains
after discarding NaNs), `best_fit_waterlvl` fails (`np.max` of an empty
array raises) and produces no scale output. -/
theorem best_fit_waterlvl_nodata (WL : List (Option ℚ)) (datum NZGrid : ℤ)
    (h : WL.filterMap id = []) :
    best_fit_waterlvl WL datum NZGrid = none := by
  simp [best_fit_waterlvl, h]

/-- Witness for the no-data theorem: a two-element all-NaN array. -/
theorem best_fit_waterlvl_nodata_witness :
    best_fit_waterlvl [none, none] 0 8 = none :=
  best_fit_waterlvl_nodata [none, none] 0 8 rfl

/-- **C10**: for valid grid divisions the fitted step always lies in
`[0.05, 5.0]`, saturating at `5.0` when the target exceeds `5.0` and at
`0.05` for arbitrarily small targets. -/
theorem best_fit_waterlvl_step_saturates
    (WL : List (Option ℚ)) (datum NZGrid : ℤ) (v : ℚ) (vs : List ℚ)
    (hW : WL.filterMap id = v :: vs)
    (hd : datum = 0 ∨ datum = 1)
    (hg : 6 ≤ NZGrid) :
    ∃ s o, best_fit_waterlvl WL datum NZGrid = some (s, o) ∧
      1/20 ≤ s ∧ s ≤ 5 ∧
      (5 ≤ (npmax (v :: vs) - npmin (v :: vs)) / ((NZGrid : ℚ) - 5) → s = 5) ∧
      ((npmax (v :: vs) - npmin (v :: vs)) / ((NZGrid : ℚ) - 5) ≤ 1/20 →
        s = 1/20) := by
  obtain ⟨s, hs⟩ :=
    pickScale_isSome ((npmax (v :: vs) - npmin (v :: vs)) / ((NZGrid : ℚ) - 5))
  obtain ⟨hlo, hhi⟩ := SCALE_bounds s (pickScale_mem hs)
  refine ⟨s, if datum = 0 then s * (⌈npmax (v :: vs) / s⌉ : ℤ)
             else s * (⌊npmin (v :: vs) / s⌋ : ℤ), ?_, hlo, hhi, ?_, ?_⟩
  · rw [best_fit_waterlvl_cons hW, best_fit_core_eq _ _ _ hd hs]
  · intro ht; exact pickScale_of_five_le ht hs
  · intro ht; exact pickScale_of_le_twentieth ht hs

/-- Witness for the saturation theorem: values spanning `[0, 100]` with
`gridDivisions = 8` have `target = 100/3 > 5`, and the step saturates at
`5`. -/
theorem best_fit_waterlvl_step_saturates_witness :
    (∃ s o, best_fit_waterlvl [some 0, some 100] 0 8 = some (s, o) ∧
      1/20 ≤ s ∧ s ≤ 5 ∧
      (5 ≤ (npmax ((0:ℚ) :: [100]) - npmin ((0:ℚ) :: [100])) / (((8:ℤ) : ℚ) - 5) → s = 5) ∧
      ((npmax ((0:ℚ) :: [100]) - npmin ((0:ℚ) :: [100])) / (((8:ℤ) : ℚ) - 5) ≤ 1/20 →
        s = 1/20)) ∧
    (5 : ℚ) ≤ (npmax ((0:ℚ) :: [100]) - npmin ((0:ℚ) :: [100])) / (((8:ℤ) : ℚ) - 5) := by
  constructor
  · exact best_fit_waterlvl_step_saturates [some 0, some 100] 0 8 0 [100]
      rfl (Or.inl rfl) (by norm_num)
  · norm_num [npmin, npmax]

/-! ## Margins -/

/-- **C4**: the margins computed by `set_margins`, re-expressed in inches
(multiplied back by the figure dimension they were divided by), are:
left `0.85`, bottom `0.6`, right `0.85`/`0.15` depending on the secondary
panel, top `0.25` plus `0.45`/`0.20`/`0` depending on title-or-legend and
secondary panel; the right margin strictly decreases when the secondary
panel is turned off. -/
theorem set_margins_inches
    (fwidth fheight : ℚ) (meteo_on isGraphTitle isLegend : Bool)
    (hw : 0 < fwidth) (hh : 0 < fheight) :
    (set_margins fwidth fheight meteo_on isGraphTitle isLegend).1 * fwidth
      = 85/100 ∧
    (set_margins fwidth fheight meteo_on isGraphTitle isLegend).2.1 * fwidth
      = (if meteo_on then 85/100 else 15/100) ∧
    (set_margins fwidth fheight meteo_on isGraphTitle isLegend).2.2.1 * fheight
      = 6/10 ∧
    (set_margins fwidth fheight meteo_on isGraphTitle isLegend).2.2.2 * fheight
      = 25/100 + (if (isGraphTitle || isLegend) && meteo_on then 45/100
                  else if isGraphTitle || isLegend then 2/10 else 0) ∧
    (set_margins fwidth fheight false isGraphTitle isLegend).2.1
      < (set_margins fwidth fheight true isGraphTitle isLegend).2.1 := by
  have hw' : fwidth ≠ 0 := ne_of_gt hw
  have hh' : fheight ≠ 0 := ne_of_gt hh
  refine ⟨?_, ?_, ?_, ?_, ?_⟩
  · field_simp [set_margins]
    try ring
  · cases meteo_on <;> field_simp [set_margins] <;> try ring
  · field_simp [set_margins]
    try ring
  · cases meteo_on <;> cases isGraphTitle <;> cases isLegend <;>
      field_simp [set_margins] <;> try ring
  · have h : (15 : ℚ)/100 / fwidth < 85/100 / fwidth :=
      (div_lt_div_right hw).mpr (by norm_num)
    simpa [set_margins] using h

/-- Witness for the margins theorem at figure size `11 × 7` inches with the
secondary panel and the title visible. -/
theorem set_margins_inches_witness :
    (set_margins 11 7 true true false).1 * 11 = 85/100 ∧
    (set_margins 11 7 true true false).2.1 * 11 = 85/100 ∧
    (set_margins 11 7 true true false).2.2.1 * 7 = 6/10 ∧
    (set_margins 11 7 true true false).2.2.2 * 7 = 25/100 + 45/100 ∧
    (set_margins 11 7 false true false).2.1
      < (set_margins 11 7 true true false).2.1 := by
  have h := set_margins_inches 11 7 true true false (by norm_num) (by norm_num)
  simpa using h

/-! ## Binning -/

theorem foldl_add_eq_sum : ∀ (l : List ℚ) (a : ℚ), l.foldl (· + ·) a = a + l.sum
  | [], a => by simp
  | x :: t, a => by
    rw [List.foldl_cons, foldl_add_eq_sum t (a + x), List.sum_cons]
    ring

theorem bin_sum_windows (x : List ℚ) (w : ℕ) (hw : 0 < w) :
    bin_sum x w
      = (List.range (x.length / w)).map (fun i => (spec_window x w i).sum) := by
  unfold bin_sum spec_window
  apply List.map_congr_left
  intro i hi
  rw [List.mem_range] at hi
  have h2 : (i + 1) * w ≤ x.length / w * w :=
    Nat.mul_le_mul_right w hi
  have h3 : w ≤ x.length / w * w - i * w := by
    have h4 : (i + 1) * w = i * w + w := by ring
    omega
  rw [List.drop_take, List.take_take, min_eq_left h3, foldl_add_eq_sum,
    zero_add]

/-- **C3**: for `widthDays ∈ {7, 30, 365}` (`bwidth_indx ∈ {1, 2, 3}`),
`resample_bin` partitions the first `floor(L/w)*w` samples of each series
into contiguous windows of `w` samples (discarding the remainder), summing
each window for the SUM-kind series (precipitation, rain) and dividing the
window sum by `w` for the MEAN-kind series (timestamp, max temperature);
each output length is exactly `floor(L/w)`, it never fails, and an empty
input yields an empty output. -/
theorem resample_bin_partition
    (TIMEmeteo TMAX PTOT RAIN : List ℚ) (bwidth_indx w : ℕ)
    (hidx : bwidth_indx = 1 ∨ bwidth_indx = 2 ∨ bwidth_indx = 3)
    (hw : [1, 7, 30, 365].getD bwidth_indx 0 = w) :
    (resample_bin bwidth_indx TIMEmeteo TMAX PTOT RAIN
      = (w,
         (List.range (TIMEmeteo.length / w)).map
           (fun i => (spec_window TIMEmeteo w i).sum / (w : ℚ)),
         (List.range (TMAX.length / w)).map
           (fun i => (spec_window TMAX w i).sum / (w : ℚ)),
         (List.range (PTOT.length / w)).map
           (fun i => (spec_window PTOT w i).sum),
         (List.range (RAIN.length / w)).map
           (fun i => (spec_window RAIN w i).sum))) ∧
    (resample_bin bwidth_indx TIMEmeteo TMAX PTOT RAIN).2.1.length
      = TIMEmeteo.length / w ∧
    (resample_bin bwidth_indx TIMEmeteo TMAX PTOT RAIN).2.2.2.1.length
      = PTOT.length / w ∧
    (TIMEmeteo = [] →
      (resample_bin bwidth_indx TIMEmeteo TMAX PTOT RAIN).2.1 = []) := by
  rcases hidx with rfl | rfl | rfl <;> norm_num [List.getD] at hw <;> subst hw
  · exact ⟨by simp [resample_bin, bin_sum_windows _ 7 (by norm_num),
        List.map_map, Function.comp],
      by simp [resample_bin, bin_sum],
      by simp [resample_bin, bin_sum],
      by intro h; subst h; simp [resample_bin, bin_sum]⟩
  · exact ⟨by simp [resample_bin, bin_sum_windows _ 30 (by norm_num),
        List.map_map, Function.comp],
      by simp [resample_bin, bin_sum],
      by simp [resample_bin, bin_sum],
      by intro h; subst h; simp [resample_bin, bin_sum]⟩
  · exact ⟨by simp [resample_bin, bin_sum_windows _ 365 (by norm_num),
        List.map_map, Function.comp],
      by simp [resample_bin, bin_sum],
      by simp [resample_bin, bin_sum],
      by intro h; subst h; simp [resample_bin, bin_sum]⟩

/-- Witness for the binning theorem: weekly binning (`w = 7`) of an
8-sample series drops the trailing sample and yields one bin; the MEAN-kind
series is divided by the width, the SUM-kind one is not. -/
theorem resample_bin_partition_witness :
    resample_bin 1 [1, 2, 3, 4, 5, 6, 7, 8] [] [1, 2, 3, 4, 5, 6, 7] []
      = (7, [4], [], [28], []) := by
  have h := (resample_bin_partition [1, 2, 3, 4, 5, 6, 7, 8] []
    [1, 2, 3, 4, 5, 6, 7] [] 1 7 (Or.inl rfl) (by norm_num [List.getD])).1
  rw [h]
  norm_num [spec_window, List.range_succ]

/-! ## Calendar arithmetic -/

theorem daysInMonth_ge (y m : ℕ) (h1 : 1 ≤ m) (h12 : m ≤ 12) :
    28 ≤ daysInMonth y m := by
  interval_cases m <;> simp only [daysInMonth] <;> (try split_ifs) <;> omega

theorem daysBeforeMonth_succ (y m : ℕ) :
    daysBeforeMonth y (m + 1) = daysBeforeMonth y m + daysInMonth y m := rfl

theorem daysBeforeMonth_mono (y : ℕ) {m m' : ℕ} (h : m ≤ m') :
    daysBeforeMonth y m ≤ daysBeforeMonth y m' := by
  induction m', h using Nat.le_induction with
  | base => exact le_rfl
  | succ n hn ih => rw [daysBeforeMonth_succ]; omega

theorem yearDays_eq (y : ℕ) : yearDays y = if isLeap y then 366 else 365 := by
  show ((((((((((((0 + 0) + 31) + (if isLeap y then 29 else 28)) + 31) + 30)
    + 31) + 30) + 31) + 31) + 30) + 31) + 30) + 31
      = if isLeap y then 366 else 365
  cases isLeap y <;> norm_num

theorem yearDays_ge (y : ℕ) : 365 ≤ yearDays y := by
  rw [yearDays_eq]; split <;> omega

theorem daysBeforeYear_succ (y : ℕ) (hy : 1 ≤ y) :
    daysBeforeYear (y + 1) = daysBeforeYear y + yearDays y := by
  obtain ⟨n, rfl⟩ : ∃ n, y = n + 1 := ⟨y - 1, by omega⟩
  unfold daysBeforeYear
  rw [yearDays_eq]
  simp only [Nat.add_sub_cancel]
  have h4 := Nat.succ_div n 4
  have h100 := Nat.succ_div n 100
  have h400 := Nat.succ_div n 400
  simp only [Nat.dvd_iff_mod_eq_zero] at h4 h100 h400
  by_cases c4 : (n + 1) % 4 = 0
  · by_cases c100 : (n + 1) % 100 = 0
    · by_cases c400 : (n + 1) % 400 = 0
      · have hl : isLeap (n + 1) = true := by
          rw [isLeap, decide_eq_true_eq]; exact ⟨c4, Or.inr c400⟩
        rw [if_pos c4] at h4
        rw [if_pos c100] at h100
        rw [if_pos c400] at h400
        rw [if_pos hl]
        rw [h4, h100, h400]
        omega
      · have hl : isLeap (n + 1) = false := by
          rw [isLeap, decide_eq_false_iff_not]
          rintro ⟨-, hor⟩
          rcases hor with hc | hc
          · exact hc c100
          · exact c400 hc
        rw [if_pos c4] at h4
        rw [if_pos c100] at h100
        rw [if_neg c400] at h400
        rw [if_neg (by simp [hl])]
        rw [h4, h100, h400]
        omega
    · have c400 : ¬(n + 1) % 400 = 0 := by omega
      have hl : isLeap (n + 1) = true := by
        rw [isLeap, decide_eq_true_eq]; exact ⟨c4, Or.inl c100⟩
      rw [if_pos c4] at h4
      rw [if_neg c100] at h100
      rw [if_neg c400] at h400
      rw [if_pos hl]
      rw [h4, h100, h400]
      omega
  · have c100 : ¬(n + 1) % 100 = 0 := by omega
    have c400 : ¬(n + 1) % 400 = 0 := by omega
    have hl : isLeap (n + 1) = false := by
      rw [isLeap, decide_eq_false_iff_not]
      rintro ⟨hc, -⟩
      exact c4 hc
    rw [if_neg c4] at h4
    rw [if_neg c100] at h100
    rw [if_neg c400] at h400
    rw [if_neg (by simp [hl])]
    rw [h4, h100, h400]
    simp only [Nat.add_zero]
    have hb : n / 100 ≤ 365 * n + n / 4 + n / 400 :=
      le_trans (Nat.div_le_self n 100)
        (le_trans (Nat.le_mul_of_pos_left n (by norm_num))
          (le_trans (Nat.le_add_right (365 * n) (n / 4))
            (Nat.le_add_right (365 * n + n / 4) (n / 400))))
    have hA : 365 * (n + 1) + n / 4 + n / 400
        = (365 * n + n / 4 + n / 400) + 365 := by ring
    rw [hA, Nat.sub_add_comm hb]

theorem daysBeforeYear_mono {y1 y2 : ℕ} (h1 : 1 ≤ y1) (h : y1 ≤ y2) :
    daysBeforeYear y1 ≤ daysBeforeYear y2 := by
  induction y2, h using Nat.le_induction with
  | base => exact le_rfl
  | succ n hn ih => rw [daysBeforeYear_succ n (by omega)]; omega

theorem daysBeforeYear_add (y k : ℕ) (hy : 1 ≤ y) :
    daysBeforeYear (y + k)
      = daysBeforeYear y + ∑ j ∈ Finset.range k, yearDays (y + j) := by
  induction k with
  | zero => simp
  | succ k ih =>
    rw [show y + (k + 1) = (y + k) + 1 from rfl,
      daysBeforeYear_succ (y + k) (by omega), ih, Finset.sum_range_succ]
    omega

theorem dbm_eq_sum_from_one (y m : ℕ) (hm : 1 ≤ m) :
    daysBeforeMonth y m
      = ∑ j ∈ Finset.range (m - 1), daysInMonth y (1 + j) := by
  obtain ⟨k, rfl⟩ : ∃ k, m = k + 1 := ⟨m - 1, by omega⟩
  clear hm
  simp only [Nat.add_sub_cancel]
  induction k with
  | zero => simp [daysBeforeMonth, daysInMonth]
  | succ k ih =>
    rw [daysBeforeMonth_succ, ih, Finset.sum_range_succ]
    congr 2
    omega

theorem dbm_add_day_le (y m d : ℕ) (hm : m ≤ 12) (hd : d ≤ daysInMonth y m) :
    daysBeforeMonth y m + d ≤ yearDays y := by
  have h1 : daysBeforeMonth y m + d ≤ daysBeforeMonth y (m + 1) := by
    rw [daysBeforeMonth_succ]; omega
  have h2 : daysBeforeMonth y (m + 1) ≤ daysBeforeMonth y 13 :=
    daysBeforeMonth_mono y (by omega)
  exact le_trans h1 h2

theorem findYear_unfold (f y d : ℕ) :
    findYear (f + 1) y d
      = if d ≤ yearDays y then (y, d)
        else findYear f (y + 1) (d - yearDays y) := rfl

theorem findMonth_unfold (f y m d : ℕ) :
    findMonth (f + 1) y m d
      = if d ≤ daysInMonth y m then (m, d)
        else findMonth f y (m + 1) (d - daysInMonth y m) := rfl

set_option maxHeartbeats 1600000 in
theorem findYear_spec : ∀ (k : ℕ), ∀ (y0 rest fuel : ℕ), 1 ≤ rest →
    rest ≤ yearDays (y0 + k) → k + 1 ≤ fuel →
    findYear fuel y0 ((∑ j ∈ Finset.range k, yearDays (y0 + j)) + rest)
      = (y0 + k, rest) := by
  intro k
  induction k with
  | zero =>
    intro y0 rest fuel h1 h2 h3
    obtain ⟨f, rfl⟩ : ∃ f, fuel = f + 1 := ⟨fuel - 1, by omega⟩
    simp only [Finset.range_zero, Finset.sum_empty, Nat.zero_add,
      Nat.add_zero] at *
    rw [findYear_unfold, if_pos h2]
  | succ k ih =>
    intro y0 rest fuel h1 h2 h3
    obtain ⟨f, rfl⟩ : ∃ f, fuel = f + 1 := ⟨fuel - 1, by omega⟩
    have hsum : (∑ j ∈ Finset.range (k + 1), yearDays (y0 + j))
        = yearDays y0 + ∑ j ∈ Finset.range k, yearDays ((y0 + 1) + j) := by
      rw [Finset.sum_range_succ']
      have hc : ∀ j ∈ Finset.range k,
          yearDays (y0 + (j + 1)) = yearDays ((y0 + 1) + j) :=
        fun j _ => by congr 1; omega
      rw [Finset.sum_congr rfl hc,
        show yearDays (y0 + 0) = yearDays y0 by norm_num]
      exact add_comm _ _
    have hstep : findYear (f + 1) y0
        (yearDays y0 + (∑ j ∈ Finset.range k, yearDays ((y0 + 1) + j) + rest))
        = findYear f (y0 + 1)
          (∑ j ∈ Finset.range k, yearDays ((y0 + 1) + j) + rest) := by
      have hc : ¬(yearDays y0
          + (∑ j ∈ Finset.range k, yearDays ((y0 + 1) + j) + rest)
            ≤ yearDays y0) := by omega
      rw [findYear_unfold, if_neg hc]
      exact congrArg (findYear f (y0 + 1)) (by omega)
    have h2' : rest ≤ yearDays ((y0 + 1) + k) := by
      have heq : (y0 + 1) + k = y0 + (k + 1) := by omega
      rw [heq]; exact h2
    rw [hsum, add_assoc, hstep]
    have heq : (y0 + 1) + k = y0 + (k + 1) := by omega
    rw [← heq]
    exact ih (y0 + 1) rest f h1 h2' (by omega)

set_option maxHeartbeats 1600000 in
theorem findMonth_spec : ∀ (k : ℕ), ∀ (m0 rest y fuel : ℕ), 1 ≤ rest →
    rest ≤ daysInMonth y (m0 + k) → k + 1 ≤ fuel →
    findMonth fuel y m0 ((∑ j ∈ Finset.range k, daysInMonth y (m0 + j)) + rest)
      = (m0 + k, rest) := by
  intro k
  induction k with
  | zero =>
    intro m0 rest y fuel h1 h2 h3
    obtain ⟨f, rfl⟩ : ∃ f, fuel = f + 1 := ⟨fuel - 1, by omega⟩
    simp only [Finset.range_zero, Finset.sum_empty, Nat.zero_add,
      Nat.add_zero] at *
    rw [findMonth_unfold, if_pos h2]
  | succ k ih =>
    intro m0 rest y fuel h1 h2 h3
    obtain ⟨f, rfl⟩ : ∃ f, fuel = f + 1 := ⟨fuel - 1, by omega⟩
    have hsum : (∑ j ∈ Finset.range (k + 1), daysInMonth y (m0 + j))
        = daysInMonth y m0
          + ∑ j ∈ Finset.range k, daysInMonth y ((m0 + 1) + j) := by
      rw [Finset.sum_range_succ']
      have hc : ∀ j ∈ Finset.range k,
          daysInMonth y (m0 + (j + 1)) = daysInMonth y ((m0 + 1) + j) :=
        fun j _ => by congr 1; omega
      rw [Finset.sum_congr rfl hc,
        show daysInMonth y (m0 + 0) = daysInMonth y m0 by norm_num]
      exact add_comm _ _
    have hstep : findMonth (f + 1) y m0
        (daysInMonth y m0
          + (∑ j ∈ Finset.range k, daysInMonth y ((m0 + 1) + j) + rest))
        = findMonth f y (m0 + 1)
          (∑ j ∈ Finset.range k, daysInMonth y ((m0 + 1) + j) + rest) := by
      have hc : ¬(daysInMonth y m0
          + (∑ j ∈ Finset.range k, daysInMonth y ((m0 + 1) + j) + rest)
            ≤ daysInMonth y m0) := by omega
      rw [findMonth_unfold, if_neg hc]
      exact congrArg (findMonth f y (m0 + 1)) (by omega)
    have h2' : rest ≤ daysInMonth y ((m0 + 1) + k) := by
      have heq : (m0 + 1) + k = m0 + (k + 1) := by omega
      rw [heq]; exact h2
    rw [hsum, add_assoc, hstep]
    have heq : (m0 + 1) + k = m0 + (k + 1) := by omega
    rw [← heq]
    exact ih (m0 + 1) rest y f h1 h2' (by omega)

theorem xlEpoch_lt_rataDie (y m d : ℕ) (hy : 1900 ≤ y) (hd : 1 ≤ d) :
    xlEpoch + 2 ≤ rataDie y m d := by
  have h1 : daysBeforeYear 1900 ≤ daysBeforeYear y :=
    daysBeforeYear_mono (by norm_num) hy
  have h2 : daysBeforeYear 1900 = xlEpoch + 1 := by decide
  unfold rataDie
  omega

/-- The `xlrd` codec round-trips: decoding the serial of a valid date from
1900 on (serial `≥ 61`) gives back the date. -/
theorem xldate_roundtrip (y m d : ℕ) (hv : validTup y m d) (hy : 1900 ≤ y)
    (hs : 61 ≤ xldate_from_date_tuple y m d) :
    xldate_as_tuple (xldate_from_date_tuple y m d) = some (y, m, d) := by
  obtain ⟨hm1, hm12, hd1, hdm⟩ := hv
  have hepoch : daysBeforeYear 1900 = xlEpoch + 1 := by decide
  have hrdlow := xlEpoch_lt_rataDie y m d hy hd1
  have hndef : xldate_from_date_tuple y m d = rataDie y m d - xlEpoch := rfl
  set n := xldate_from_date_tuple y m d with hn
  have hrd : rataDie y m d = n + xlEpoch := by omega
  have hyk : 1900 + (y - 1900) = y := by omega
  have hyear : daysBeforeYear y = daysBeforeYear 1900
      + ∑ j ∈ Finset.range (y - 1900), yearDays (1900 + j) := by
    have h := daysBeforeYear_add 1900 (y - 1900) (by norm_num)
    rw [hyk] at h
    exact h
  have hrest1 : 1 ≤ daysBeforeMonth y m + d := by omega
  have hrest2 : daysBeforeMonth y m + d ≤ yearDays y :=
    dbm_add_day_le y m d hm12 hdm
  have hsum_ge : 365 * (y - 1900)
      ≤ ∑ j ∈ Finset.range (y - 1900), yearDays (1900 + j) := by
    calc 365 * (y - 1900) = ∑ _j ∈ Finset.range (y - 1900), 365 := by
          rw [Finset.sum_const, Finset.card_range, smul_eq_mul, mul_comm]
    _ ≤ _ := Finset.sum_le_sum fun j _ => yearDays_ge _
  have hr : rataDie y m d = daysBeforeYear y + daysBeforeMonth y m + d := rfl
  have hn1 : n - 1 = (∑ j ∈ Finset.range (y - 1900), yearDays (1900 + j))
      + (daysBeforeMonth y m + d) := by omega
  have hfuel : (y - 1900) + 1 ≤ n := by omega
  have hfy : findYear n 1900 (n - 1) = (y, daysBeforeMonth y m + d) := by
    rw [hn1]
    have h := findYear_spec (y - 1900) 1900 (daysBeforeMonth y m + d) n
      hrest1 (by rw [hyk]; exact hrest2) hfuel
    rw [hyk] at h
    exact h
  have hdbm := dbm_eq_sum_from_one y m hm1
  have hfm : findMonth 12 y 1 (daysBeforeMonth y m + d) = (m, d) := by
    have hd2 : d ≤ daysInMonth y (1 + (m - 1)) := by
      rw [show 1 + (m - 1) = m by omega]; exact hdm
    have h := findMonth_spec (m - 1) 1 d y 12 hd1 hd2 (by omega)
    rw [← hdbm, show 1 + (m - 1) = m by omega] at h
    exact h
  have hunf : xldate_as_tuple n
      = if n < 61 then none
        else some ((findYear n 1900 (n - 1)).1,
          (findMonth 12 (findYear n 1900 (n - 1)).1 1
            (findYear n 1900 (n - 1)).2).1,
          (findMonth 12 (findYear n 1900 (n - 1)).1 1
            (findYear n 1900 (n - 1)).2).2) := rfl
  rw [hunf, if_neg (by omega), hfy]
  rw [hfm]

/-! ## Time-axis best fit -/

/-- Evaluation of `best_fit_time` on a non-empty list once the decodings of
the first and last entries are known. -/
theorem best_fit_time_eval (t0 : ℕ) (rest : List ℕ) (a b : ℕ × ℕ × ℕ)
    (h0 : xldate_as_tuple t0 = some a)
    (h1 : xldate_as_tuple ((t0 :: rest).getLast (by simp)) = some b) :
    best_fit_time (t0 :: rest)
      = some ((a.1, a.2.1, 1),
          if b.2.1 + 1 > 12 then (b.1 + 1, 1, 1)
          else (b.1, b.2.1 + 1, 1)) := by
  have hunf : best_fit_time (t0 :: rest)
      = (xldate_as_tuple t0).bind fun date0 =>
          (xldate_as_tuple ((t0 :: rest).getLast (by simp))).bind fun date1 =>
            some ((date0.1, date0.2.1, 1),
              if date1.2.1 + 1 > 12 then (date1.1 + 1, 1, 1)
              else (date1.1, date1.2.1 + 1, 1)) := rfl
  rw [hunf, h0, h1]
  rfl

set_option maxRecDepth 8000 in
/-- **C2**: over a non-empty strictly increasing sequence of (valid,
post-1900, serial `≥ 61`) dates, `best_fit_time` returns the first day of
the month of the earliest timestamp and the first day of the month
following the month of the latest timestamp, with December wrapping to
January of the next year. -/
theorem best_fit_time_month_bounds
    (dates : List (ℕ × ℕ × ℕ)) (d0 dl : ℕ × ℕ × ℕ)
    (hhead : dates.head? = some d0)
    (hlast : dates.getLast? = some dl)
    (hvalid : ∀ p ∈ dates, validTup p.1 p.2.1 p.2.2 ∧ 1900 ≤ p.1 ∧
      61 ≤ xldate_from_date_tuple p.1 p.2.1 p.2.2)
    (hsorted : dates.Chain' (fun a b =>
      xldate_from_date_tuple a.1 a.2.1 a.2.2
        < xldate_from_date_tuple b.1 b.2.1 b.2.2)) :
    best_fit_time (dates.map (fun p => xldate_from_date_tuple p.1 p.2.1 p.2.2))
      = some ((d0.1, d0.2.1, 1),
          if dl.2.1 + 1 > 12 then (dl.1 + 1, 1, 1)
          else (dl.1, dl.2.1 + 1, 1)) := by
  cases dates with
  | nil => simp at hhead
  | cons t0 rest =>
    obtain rfl : t0 = d0 := by simpa using hhead
    have hmem_last : dl ∈ t0 :: rest := by
      have h3 := List.getLast?_eq_getLast (t0 :: rest) (by simp)
      rw [hlast] at h3
      injection h3 with h3
      rw [h3]
      exact List.getLast_mem _
    obtain ⟨hvl, hyl, hsl⟩ := hvalid dl hmem_last
    obtain ⟨hv0, hy0, hs0⟩ := hvalid t0 (by simp)
    simp only [List.map_cons]
    have hglast : ((xldate_from_date_tuple t0.1 t0.2.1 t0.2.2
        :: rest.map (fun p => xldate_from_date_tuple p.1 p.2.1 p.2.2))).getLast
          (by simp)
        = xldate_from_date_tuple dl.1 dl.2.1 dl.2.2 := by
      have h2 : (xldate_from_date_tuple t0.1 t0.2.1 t0.2.2
          :: rest.map (fun p => xldate_from_date_tuple p.1 p.2.1 p.2.2)).getLast?
            = some (xldate_from_date_tuple dl.1 dl.2.1 dl.2.2) := by
        show ((t0 :: rest).map
            (fun p => xldate_from_date_tuple p.1 p.2.1 p.2.2)).getLast?
          = some (xldate_from_date_tuple dl.1 dl.2.1 dl.2.2)
        rw [List.getLast?_map, hlast]
        rfl
      have h3 := List.getLast?_eq_getLast (xldate_from_date_tuple t0.1 t0.2.1 t0.2.2
        :: rest.map (fun p => xldate_from_date_tuple p.1 p.2.1 p.2.2)) (by simp)
      exact (Option.some.inj (h2.symm.trans h3)).symm
    rw [best_fit_time_eval _ _ (t0.1, t0.2.1, t0.2.2) (dl.1, dl.2.1, dl.2.2)
      (xldate_roundtrip t0.1 t0.2.1 t0.2.2 hv0 hy0 hs0)
      (by rw [hglast]; exact xldate_roundtrip dl.1 dl.2.1 dl.2.2 hvl hyl hsl)]

/-- Witness for the time-range theorem: timestamps 2000-01-15 and
2001-12-20 give the bounds 2000-01-01 and 2002-01-01 (December wraps the
year). -/
theorem best_fit_time_month_bounds_witness :
    (best_fit_time ([((2000:ℕ), (1:ℕ), (15:ℕ)), (2001, 12, 20)].map
        (fun p => xldate_from_date_tuple p.1 p.2.1 p.2.2))
      = some ((2000, 1, 1),
          if 12 + 1 > 12 then (2001 + 1, 1, 1) else (2001, 12 + 1, 1))) ∧
    best_fit_time [36540, 37245] = some ((2000, 1, 1), (2002, 1, 1)) := by
  constructor
  · exact best_fit_time_month_bounds [(2000, 1, 15), (2001, 12, 20)]
      (2000, 1, 15) (2001, 12, 20) rfl (by decide) (by decide)
      (by simp only [List.chain'_cons, List.chain'_singleton, and_true]
          decide)
  · decide

/-! ## Idempotence of the best-fit operations (claim C8) -/

/-- Counterexample to C8 as stated: re-fitting the fitted axis bounds does
not return the same scale, and re-fitting the fitted time bounds does not
return the same end date.  The `[0,10]` fit with 8 grid divisions gives
`(step, origin) = (3.3, 13.2)` and axis bounds `±13.2`
(`origin - NZGrid*step = -13.2`), whose re-fit picks step `5 ≠ 3.3`;
serials 36526/37257 are the fitted bounds (2000-01-01, 2002-01-01) of the
2000-01-15..2001-12-20 fit, and re-fitting them moves the end to
2002-02-01. -/
theorem best_fit_idempotence_counterexample :
    (best_fit_waterlvl [some 0, some 10] 0 8 = some (33/10, 66/5) ∧
     (66/5 : ℚ) - 8 * (33/10) = -(66/5) ∧
     (best_fit_waterlvl [some (-(66/5)), some (66/5)] 0 8).map Prod.fst
       = some 5 ∧
     (5 : ℚ) ≠ 33/10) ∧
    (best_fit_time_serials [36540, 37245] = some (36526, 37257) ∧
     best_fit_time [36526, 37257] = some ((2000, 1, 1), (2002, 2, 1)) ∧
     ((2002, 2, 1) : ℕ × ℕ × ℕ) ≠ (2002, 1, 1)) := by
  refine ⟨⟨?_, by norm_num, ?_, by norm_num⟩, by decide, by decide, by decide⟩
  · have hmx : npmax ((0:ℚ) :: [10]) = 10 := by norm_num [npmax]
    have hmn : npmin ((0:ℚ) :: [10]) = 0 := by norm_num [npmin]
    have hp : pickScale ((10 - (0:ℚ)) / (((8:ℤ) : ℚ) - 5)) = some (33/10) := by
      have ht : (10 - (0:ℚ)) / (((8:ℤ) : ℚ) - 5) = 10/3 := by norm_num
      rw [ht]
      have hdm : dSCALEmin (10/3 : ℚ) = 1/30 := by
        norm_num [dSCALEmin, SCALE, List.range_succ, npmin, min_def, abs]
      norm_num [pickScale, hdm, SCALE, List.range_succ, List.find?, abs]
    have hW : List.filterMap id [some (0:ℚ), some 10] = [0, 10] := by simp
    rw [best_fit_waterlvl_cons hW 0 8, hmx, hmn,
      best_fit_core_eq 10 0 8 (Or.inl rfl) hp]
    have hc : (⌈(100 : ℚ) / 33⌉ : ℤ) = 4 := by
      rw [Int.ceil_eq_iff] <;> norm_num
    norm_num [hc]
  · have hmx : npmax ((-(66/5) : ℚ) :: [66/5]) = 66/5 := by
      norm_num [npmax]
    have hmn : npmin ((-(66/5) : ℚ) :: [66/5]) = -(66/5) := by
      norm_num [npmin]
    obtain ⟨s, hs⟩ := pickScale_isSome ((66/5 - -(66/5 : ℚ)) / (((8:ℤ) : ℚ) - 5))
    have hs5 : s = 5 := pickScale_of_five_le (by norm_num) hs
    subst hs5
    have hW : List.filterMap id [some (-(66/5) : ℚ), some (66/5)]
        = [-(66/5), 66/5] := by simp
    rw [best_fit_waterlvl_cons hW 0 8, hmx, hmn,
      best_fit_core_eq (66/5) (-(66/5)) 8 (Or.inl rfl) hs]
    norm_num

/-- C8 amended: `best_fit_waterlvl` depends only on the min and max of the
non-NaN values, so re-applying it to the two-element array of the data's
own bounds reproduces the fit; re-applying `best_fit_time` to a fitted
`[start, end]` bound pair (both first-of-month dates) reproduces the start
date while the end date advances to the first day of the following
month. -/
theorem best_fit_refit_amended :
    (∀ (WL : List (Option ℚ)) (datum NZGrid : ℤ) (v : ℚ) (vs : List ℚ),
      WL.filterMap id = v :: vs →
      best_fit_waterlvl [some (npmin (v :: vs)), some (npmax (v :: vs))]
        datum NZGrid
        = best_fit_waterlvl WL datum NZGrid) ∧
    (∀ y0 m0 y1 m1 : ℕ, 1 ≤ m0 → m0 ≤ 12 → 1 ≤ m1 → m1 ≤ 12 →
      1900 ≤ y0 → 1900 ≤ y1 →
      61 ≤ xldate_from_date_tuple y0 m0 1 →
      61 ≤ xldate_from_date_tuple y1 m1 1 →
      best_fit_time
          [xldate_from_date_tuple y0 m0 1, xldate_from_date_tuple y1 m1 1]
        = some ((y0, m0, 1),
            if m1 + 1 > 12 then (y1 + 1, 1, 1) else (y1, m1 + 1, 1))) := by
  constructor
  · intro WL datum NZGrid v vs hW
    have hmnmx := npmin_le_npmax (v :: vs) (by simp)
    have hW2 : ([some (npmin (v :: vs)), some (npmax (v :: vs))] :
        List (Option ℚ)).filterMap id
          = npmin (v :: vs) :: [npmax (v :: vs)] := by simp
    rw [best_fit_waterlvl_cons hW2 datum NZGrid,
      best_fit_waterlvl_cons hW datum NZGrid]
    have h1 : npmax (npmin (v :: vs) :: [npmax (v :: vs)])
        = npmax (v :: vs) := by
      show max (npmin (v :: vs)) (npmax (v :: vs)) = npmax (v :: vs)
      exact max_eq_right hmnmx
    have h2 : npmin (npmin (v :: vs) :: [npmax (v :: vs)])
        = npmin (v :: vs) := by
      show min (npmin (v :: vs)) (npmax (v :: vs)) = npmin (v :: vs)
      exact min_eq_left hmnmx
    rw [h1, h2]
  · intro y0 m0 y1 m1 hm01 hm02 hm11 hm12 hy0 hy1 hs0 hs1
    have hv0 : validTup y0 m0 1 :=
      ⟨hm01, hm02, le_refl 1, by have := daysInMonth_ge y0 m0 hm01 hm02; omega⟩
    have hv1 : validTup y1 m1 1 :=
      ⟨hm11, hm12, le_refl 1, by have := daysInMonth_ge y1 m1 hm11 hm12; omega⟩
    have hgl : ([xldate_from_date_tuple y0 m0 1,
        xldate_from_date_tuple y1 m1 1] : List ℕ).getLast (by simp)
          = xldate_from_date_tuple y1 m1 1 := rfl
    rw [best_fit_time_eval _ _ (y0, m0, 1) (y1, m1, 1)
      (xldate_roundtrip y0 m0 1 hv0 hy0 hs0)
      (by rw [hgl]; exact xldate_roundtrip y1 m1 1 hv1 hy1 hs1)]

/-- Witness for the amended idempotence theorem: the data-bounds re-fit of
`{1, 3, 2}` coincides with the original fit, and re-fitting the bound pair
(2000-01-01, 2002-01-01) keeps the start and moves the end one month. -/
theorem best_fit_refit_amended_witness :
    (best_fit_waterlvl
        [some (npmin ((1:ℚ) :: [3, 2])), some (npmax ((1:ℚ) :: [3, 2]))] 0 8
      = best_fit_waterlvl [some 1, some 3, some 2] 0 8) ∧
    (best_fit_time
        [xldate_from_date_tuple 2000 1 1, xldate_from_date_tuple 2002 1 1]
      = some ((2000, 1, 1),
          if 1 + 1 > 12 then (2002 + 1, 1, 1) else (2002, 1 + 1, 1))) := by
  constructor
  · exact best_fit_refit_amended.1 [some 1, some 3, some 2] 0 8 1 [3, 2] rfl
  · exact best_fit_refit_amended.2 2000 1 2002 1 (by norm_num) (by norm_num)
      (by norm_num) (by norm_num) (by norm_num) (by norm_num)
      (by decide) (by decide)

/-! ## The tick-label offset (claim C9) -/

/-- Counterexample to C9 as stated: the source multiplies by
`TIMEmax - TIMEmin + 1`, one day more than the claimed time span
`endDate - startDate`; at glyph height 1, a square panel and a 10-day span
the two formulas differ. -/
theorem xticks_labels_offset_counterexample :
    xticks_labels_offset 1 1 1 0 10 ≠ offset_spec_formula 1 1 1 0 10 := by
  simp only [xticks_labels_offset, offset_spec_formula, Real.sin_pi_div_four]
  intro h
  have h2 : (0:ℝ) < Real.sqrt 2 := Real.sqrt_pos.mpr (by norm_num)
  nlinarith [h, h2]

/-- C9 amended: the offset equals
`glyphBoxHeight * sin 45° * (panelHeight/panelWidth) * (endDate - startDate + 1)`
— the time-span factor of the source is the span plus one day.  The offset
is a function of the glyph metrics and axis geometry only. -/
theorem xticks_labels_offset_formula (h H W t0 t1 : ℝ) :
    xticks_labels_offset h H W t0 t1
      = h * Real.sin (Real.pi / 4) * (H / W) * (t1 - t0 + 1) := by
  simp only [xticks_labels_offset]
  ring

/-! ## The tick walk (claim C6) -/

theorem addMonths_zero (y m : ℕ) (hm1 : 1 ≤ m) (hm12 : m ≤ 12) :
    addMonths y m 0 = (y, m) := by
  rw [addMonths, Prod.mk.injEq]
  constructor <;> omega

theorem addMonths_add (y m j k : ℕ) :
    addMonths y m (j + k)
      = addMonths (addMonths y m j).1 (addMonths y m j).2 k := by
  simp only [addMonths]
  rw [Prod.mk.injEq]
  constructor <;> omega

theorem addMonths_snd_ge (y m k : ℕ) : 1 ≤ (addMonths y m k).2 := by
  simp only [addMonths]; omega

theorem addMonths_snd_le (y m k : ℕ) : (addMonths y m k).2 ≤ 12 := by
  simp only [addMonths]; omega

theorem addMonths_fst_ge (y m k : ℕ) : y ≤ (addMonths y m k).1 := by
  simp only [addMonths]; omega

theorem from_tuple_add_month (y m : ℕ) (hy : 1900 ≤ y) (hm1 : 1 ≤ m)
    (hm12 : m ≤ 12) :
    xldate_from_date_tuple y m 1 + daysInMonth y m
      = xldate_from_date_tuple (addMonths y m 1).1 (addMonths y m 1).2 1 := by
  have hrd := xlEpoch_lt_rataDie y m 1 hy le_rfl
  have e0 : rataDie y m 1 = daysBeforeYear y + daysBeforeMonth y m + 1 := rfl
  by_cases h12 : m = 12
  · subst h12
    have ha : addMonths y 12 1 = (y + 1, 1) := by
      rw [addMonths, Prod.mk.injEq]; constructor <;> norm_num
    rw [ha]
    show xldate_from_date_tuple y 12 1 + daysInMonth y 12
      = xldate_from_date_tuple (y + 1) 1 1
    have e1 : xldate_from_date_tuple y 12 1
        = daysBeforeYear y + daysBeforeMonth y 12 + 1 - xlEpoch := rfl
    have e2 : xldate_from_date_tuple (y + 1) 1 1
        = daysBeforeYear (y + 1) + daysBeforeMonth (y + 1) 1 + 1 - xlEpoch := rfl
    have e3 : daysBeforeMonth (y + 1) 1 = 0 := rfl
    have e4 : daysBeforeYear (y + 1) = daysBeforeYear y + yearDays y :=
      daysBeforeYear_succ y (by omega)
    have e5 : yearDays y = daysBeforeMonth y 12 + daysInMonth y 12 := rfl
    have e6 : daysInMonth y 12 = 31 := rfl
    omega
  · have ha : addMonths y m 1 = (y, m + 1) := by
      rw [addMonths, Prod.mk.injEq]; constructor <;> omega
    rw [ha]
    show xldate_from_date_tuple y m 1 + daysInMonth y m
      = xldate_from_date_tuple y (m + 1) 1
    have e1 : xldate_from_date_tuple y m 1
        = daysBeforeYear y + daysBeforeMonth y m + 1 - xlEpoch := rfl
    have e2 : xldate_from_date_tuple y (m + 1) 1
        = daysBeforeYear y + daysBeforeMonth y (m + 1) + 1 - xlEpoch := rfl
    have e3 : daysBeforeMonth y (m + 1)
        = daysBeforeMonth y m + daysInMonth y m := rfl
    omega

theorem serial_addMonths_ge (y m k : ℕ) (hy : 1900 ≤ y) (hm1 : 1 ≤ m)
    (hm12 : m ≤ 12) :
    xldate_from_date_tuple y m 1 + 28 * k
      ≤ xldate_from_date_tuple (addMonths y m k).1 (addMonths y m k).2 1 := by
  induction k with
  | zero =>
    rw [addMonths_zero y m hm1 hm12]
    show xldate_from_date_tuple y m 1 + 28 * 0 ≤ xldate_from_date_tuple y m 1
    omega
  | succ k ih =>
    have hstep := from_tuple_add_month (addMonths y m k).1 (addMonths y m k).2
      (le_trans hy (addMonths_fst_ge y m k)) (addMonths_snd_ge y m k)
      (addMonths_snd_le y m k)
    have hdim := daysInMonth_ge (addMonths y m k).1 (addMonths y m k).2
      (addMonths_snd_ge y m k) (addMonths_snd_le y m k)
    rw [show k + 1 = k + 1 from rfl, addMonths_add y m k 1]
    omega

theorem from_tuple_ge_367 (y m : ℕ) (hy : 1901 ≤ y) :
    367 ≤ xldate_from_date_tuple y m 1 := by
  have h1 : daysBeforeYear 1901 ≤ daysBeforeYear y :=
    daysBeforeYear_mono (by norm_num) hy
  have h2 : daysBeforeYear 1901 = xlEpoch + 366 := by decide
  have e1 : xldate_from_date_tuple y m 1
      = daysBeforeYear y + daysBeforeMonth y m + 1 - xlEpoch := rfl
  omega

theorem decode_month_start (y m : ℕ) (hy : 1901 ≤ y) (hm1 : 1 ≤ m)
    (hm12 : m ≤ 12) :
    xldate_as_tuple (xldate_from_date_tuple y m 1) = some (y, m, 1) := by
  have hdim := daysInMonth_ge y m hm1 hm12
  exact xldate_roundtrip y m 1 ⟨hm1, hm12, le_rfl, by omega⟩ (by omega)
    (by have := from_tuple_ge_367 y m hy; omega)

theorem aux_unfold (TIMEmax pattern : ℕ) (datemode language : String)
    (f pos i : ℕ) :
    make_xticks_aux TIMEmax pattern datemode language (f + 1) pos i
      = (xldate_as_tuple pos).bind fun dt =>
          let year := dt.1
          let month := dt.2.1
          let month_range := daysInMonth year month
          let isMaj := i % pattern = 0
          let lab := if str_lower datemode = "month" then
                       month_label language year month
                     else toString year
          let next_pos := if str_lower datemode = "month" then pos + month_range
                          else if str_lower datemode = "year" then
                            xldate_from_date_tuple (year + 1) 1 1
                          else pos
          if next_pos > TIMEmax then
            some (if isMaj then ([pos], [lab], [pos]) else ([], [], [pos]))
          else
            (make_xticks_aux TIMEmax pattern datemode language f next_pos
              (i + 1)).bind fun r =>
              some (if isMaj then (pos :: r.1, lab :: r.2.1, pos :: r.2.2)
                    else (r.1, r.2.1, pos :: r.2.2)) := rfl

theorem aux_step_month (T N : ℕ) (lang : String) (f pos i y m d : ℕ)
    (hdec : xldate_as_tuple pos = some (y, m, d)) :
    make_xticks_aux T N "Month" lang (f + 1) pos i
      = if pos + daysInMonth y m > T then
          some (if i % N = 0 then ([pos], [month_label lang y m], [pos])
                else ([], [], [pos]))
        else
          (make_xticks_aux T N "Month" lang f (pos + daysInMonth y m)
            (i + 1)).bind fun r =>
            some (if i % N = 0
                  then (pos :: r.1, month_label lang y m :: r.2.1, pos :: r.2.2)
                  else (r.1, r.2.1, pos :: r.2.2)) := by
  rw [aux_unfold, hdec, Option.some_bind]
  have hM : (str_lower "Month" = "month") = True :=
    eq_true (by decide)
  simp only [hM, if_true]

theorem aux_step_year (T N : ℕ) (lang : String) (f pos i y m d : ℕ)
    (hdec : xldate_as_tuple pos = some (y, m, d)) :
    make_xticks_aux T N "Year" lang (f + 1) pos i
      = if xldate_from_date_tuple (y + 1) 1 1 > T then
          some (if i % N = 0 then ([pos], [toString y], [pos])
                else ([], [], [pos]))
        else
          (make_xticks_aux T N "Year" lang f
            (xldate_from_date_tuple (y + 1) 1 1) (i + 1)).bind fun r =>
            some (if i % N = 0
                  then (pos :: r.1, toString y :: r.2.1, pos :: r.2.2)
                  else (r.1, r.2.1, pos :: r.2.2)) := by
  rw [aux_unfold, hdec, Option.some_bind]
  have hM : (str_lower "Year" = "month") = False :=
    eq_false (by decide)
  have hY : (str_lower "Year" = "year") = True :=
    eq_true (by decide)
  simp only [hM, hY, if_true, if_false]

set_option maxHeartbeats 1600000 in
theorem aux_month_spec (N : ℕ) (lang : String) :
    ∀ n y m i fuel, 1901 ≤ y → 1 ≤ m → m ≤ 12 → n + 1 ≤ fuel →
    make_xticks_aux
        (xldate_from_date_tuple (addMonths y m n).1 (addMonths y m n).2 1)
        N "Month" lang fuel (xldate_from_date_tuple y m 1) i
      = some
        ((((List.range (n + 1)).filter fun k => decide ((i + k) % N = 0)).map
            fun k => xldate_from_date_tuple (addMonths y m k).1
              (addMonths y m k).2 1),
         (((List.range (n + 1)).filter fun k => decide ((i + k) % N = 0)).map
            fun k => month_label lang (addMonths y m k).1 (addMonths y m k).2),
         ((List.range (n + 1)).map fun k =>
            xldate_from_date_tuple (addMonths y m k).1 (addMonths y m k).2 1)) := by
  intro n
  induction n with
  | zero =>
    intro y m i fuel hy hm1 hm12 hfuel
    obtain ⟨f, rfl⟩ : ∃ f, fuel = f + 1 := ⟨fuel - 1, by omega⟩
    rw [aux_step_month _ N lang f _ i y m 1 (decode_month_start y m hy hm1 hm12)]
    have h0 : addMonths y m 0 = (y, m) := addMonths_zero y m hm1 hm12
    have hT : xldate_from_date_tuple (addMonths y m 0).1 (addMonths y m 0).2 1
        = xldate_from_date_tuple y m 1 := by rw [h0]
    rw [hT, if_pos (by have := daysInMonth_ge y m hm1 hm12; omega)]
    have hrange : List.range (0 + 1) = [0] := rfl
    by_cases hmaj : i % N = 0
    · have hp0 : (fun k => decide ((i + k) % N = 0)) 0 = true := by
        show decide ((i + 0) % N = 0) = true
        rw [Nat.add_zero, hmaj]
        rfl
      rw [if_pos hmaj, hrange, List.filter_cons, if_pos hp0, List.filter_nil]
      simp only [List.map_cons, List.map_nil, h0]
    · have hp0 : ¬ ((fun k => decide ((i + k) % N = 0)) 0 = true) := by
        intro hc
        refine hmaj ?_
        have hc2 : decide ((i + 0) % N = 0) = true := hc
        rw [Nat.add_zero] at hc2
        exact of_decide_eq_true hc2
      rw [if_neg hmaj, hrange, List.filter_cons, if_neg hp0, List.filter_nil]
      simp only [List.map_cons, List.map_nil, h0]
  | succ n ih =>
    intro y m i fuel hy hm1 hm12 hfuel
    obtain ⟨f, rfl⟩ : ∃ f, fuel = f + 1 := ⟨fuel - 1, by omega⟩
    rw [aux_step_month _ N lang f _ i y m 1 (decode_month_start y m hy hm1 hm12)]
    obtain ⟨yA, mA, hA⟩ : ∃ a b, addMonths y m 1 = (a, b) :=
      ⟨(addMonths y m 1).1, (addMonths y m 1).2, rfl⟩
    have hA1 : (addMonths y m 1).1 = yA := by rw [hA]
    have hA2 : (addMonths y m 1).2 = mA := by rw [hA]
    have hm1A : 1 ≤ mA := by
      have h := addMonths_snd_ge y m 1
      rw [hA2] at h
      exact h
    have hm12A : mA ≤ 12 := by
      have h := addMonths_snd_le y m 1
      rw [hA2] at h
      exact h
    have hyA : 1901 ≤ yA := by
      have h := le_trans hy (addMonths_fst_ge y m 1)
      rw [hA1] at h
      exact h
    have hnext : xldate_from_date_tuple y m 1 + daysInMonth y m
        = xldate_from_date_tuple yA mA 1 := by
      have h := from_tuple_add_month y m (by omega) hm1 hm12
      rw [hA1, hA2] at h
      exact h
    have haddm : ∀ k : ℕ, addMonths y m (k + 1) = addMonths yA mA k :=
      fun k => by
        rw [Nat.add_comm k 1, addMonths_add y m 1 k, hA1, hA2]
    have hT : xldate_from_date_tuple (addMonths y m (n + 1)).1
          (addMonths y m (n + 1)).2 1
        = xldate_from_date_tuple (addMonths yA mA n).1
            (addMonths yA mA n).2 1 := by
      rw [haddm n]
    have hgrow := serial_addMonths_ge yA mA n (by omega) hm1A hm12A
    rw [hT, if_neg (by omega), hnext,
      ih yA mA (i + 1) f hyA hm1A hm12A (by omega)]
    simp only [Option.some_bind]
    have h0 : addMonths y m 0 = (y, m) := addMonths_zero y m hm1 hm12
    by_cases hmaj : i % N = 0
    · have hp0 : (fun k => decide ((i + k) % N = 0)) 0 = true := by
        show decide ((i + 0) % N = 0) = true
        rw [Nat.add_zero, hmaj]
        rfl
      have hfilt : (List.range (n + 1 + 1)).filter
            (fun k => decide ((i + k) % N = 0))
          = 0 :: ((List.range (n + 1)).filter
              (fun k => decide ((i + 1 + k) % N = 0))).map Nat.succ := by
        rw [List.range_succ_eq_map (n + 1), List.filter_cons, List.filter_map,
          if_pos hp0]
        refine congrArg (fun l => 0 :: List.map Nat.succ l) ?_
        exact List.filter_congr fun k _ => by
          show decide ((i + Nat.succ k) % N = 0)
            = decide ((i + 1 + k) % N = 0)
          rw [show i + Nat.succ k = i + 1 + k from by omega]
      rw [if_pos hmaj, hfilt, List.range_succ_eq_map (n + 1)]
      simp only [List.map_cons, List.map_map, Function.comp_def,
        Nat.succ_eq_add_one, haddm, h0]
    · have hp0 : ¬ ((fun k => decide ((i + k) % N = 0)) 0 = true) := by
        intro hc
        refine hmaj ?_
        have hc2 : decide ((i + 0) % N = 0) = true := hc
        rw [Nat.add_zero] at hc2
        exact of_decide_eq_true hc2
      have hfilt : (List.range (n + 1 + 1)).filter
            (fun k => decide ((i + k) % N = 0))
          = ((List.range (n + 1)).filter
              (fun k => decide ((i + 1 + k) % N = 0))).map Nat.succ := by
        rw [List.range_succ_eq_map (n + 1), List.filter_cons, List.filter_map,
          if_neg hp0]
        refine congrArg (List.map Nat.succ) ?_
        exact List.filter_congr fun k _ => by
          show decide ((i + Nat.succ k) % N = 0)
            = decide ((i + 1 + k) % N = 0)
          rw [show i + Nat.succ k = i + 1 + k from by omega]
      rw [if_neg hmaj, hfilt, List.range_succ_eq_map (n + 1)]
      simp only [List.map_cons, List.map_map, Function.comp_def,
        Nat.succ_eq_add_one, haddm, h0]

theorem from_tuple_add_year (y : ℕ) (hy : 1900 ≤ y) :
    xldate_from_date_tuple y 1 1 + yearDays y
      = xldate_from_date_tuple (y + 1) 1 1 := by
  have hrd := xlEpoch_lt_rataDie y 1 1 hy le_rfl
  have e0 : rataDie y 1 1 = daysBeforeYear y + daysBeforeMonth y 1 + 1 := rfl
  have e1 : xldate_from_date_tuple y 1 1
      = daysBeforeYear y + daysBeforeMonth y 1 + 1 - xlEpoch := rfl
  have e2 : xldate_from_date_tuple (y + 1) 1 1
      = daysBeforeYear (y + 1) + daysBeforeMonth (y + 1) 1 + 1 - xlEpoch := rfl
  have e3 : daysBeforeMonth y 1 = 0 := rfl
  have e4 : daysBeforeMonth (y + 1) 1 = 0 := rfl
  have e5 : daysBeforeYear (y + 1) = daysBeforeYear y + yearDays y :=
    daysBeforeYear_succ y (by omega)
  omega

theorem serial_addYears_ge (y k : ℕ) (hy : 1900 ≤ y) :
    xldate_from_date_tuple y 1 1 + 365 * k
      ≤ xldate_from_date_tuple (y + k) 1 1 := by
  induction k with
  | zero => rw [show y + 0 = y from rfl]; omega
  | succ k ih =>
    have hstep := from_tuple_add_year (y + k) (by omega)
    have hyd := yearDays_ge (y + k)
    have he : y + (k + 1) = (y + k) + 1 := rfl
    rw [he]
    omega

set_option maxHeartbeats 1600000 in
theorem aux_year_spec (N : ℕ) (lang : String) :
    ∀ n y i fuel, 1901 ≤ y → n + 1 ≤ fuel →
    make_xticks_aux (xldate_from_date_tuple (y + n) 1 1)
        N "Year" lang fuel (xldate_from_date_tuple y 1 1) i
      = some
        ((((List.range (n + 1)).filter fun k => decide ((i + k) % N = 0)).map
            fun k => xldate_from_date_tuple (y + k) 1 1),
         (((List.range (n + 1)).filter fun k => decide ((i + k) % N = 0)).map
            fun k => toString (y + k)),
         ((List.range (n + 1)).map fun k =>
            xldate_from_date_tuple (y + k) 1 1)) := by
  intro n
  induction n with
  | zero =>
    intro y i fuel hy hfuel
    obtain ⟨f, rfl⟩ : ∃ f, fuel = f + 1 := ⟨fuel - 1, by omega⟩
    rw [aux_step_year _ N lang f _ i y 1 1
      (decode_month_start y 1 hy le_rfl (by norm_num))]
    have hstep := from_tuple_add_year y (by omega)
    have hyd := yearDays_ge y
    rw [show y + 0 = y from rfl, if_pos (by omega)]
    have hrange : List.range (0 + 1) = [0] := rfl
    by_cases hmaj : i % N = 0
    · have hp0 : (fun k => decide ((i + k) % N = 0)) 0 = true := by
        show decide ((i + 0) % N = 0) = true
        rw [Nat.add_zero, hmaj]
        rfl
      rw [if_pos hmaj, hrange, List.filter_cons, if_pos hp0, List.filter_nil]
      simp only [List.map_cons, List.map_nil, Nat.add_zero]
    · have hp0 : ¬ ((fun k => decide ((i + k) % N = 0)) 0 = true) := by
        intro hc
        refine hmaj ?_
        have hc2 : decide ((i + 0) % N = 0) = true := hc
        rw [Nat.add_zero] at hc2
        exact of_decide_eq_true hc2
      rw [if_neg hmaj, hrange, List.filter_cons, if_neg hp0, List.filter_nil]
      simp only [List.map_cons, List.map_nil, Nat.add_zero]
  | succ n ih =>
    intro y i fuel hy hfuel
    obtain ⟨f, rfl⟩ : ∃ f, fuel = f + 1 := ⟨fuel - 1, by omega⟩
    rw [aux_step_year _ N lang f _ i y 1 1
      (decode_month_start y 1 hy le_rfl (by norm_num))]
    obtain ⟨yA, hAdef⟩ : ∃ a, y + 1 = a := ⟨y + 1, rfl⟩
    have hgrow : xldate_from_date_tuple yA 1 1 + 365 * n
        ≤ xldate_from_date_tuple (yA + n) 1 1 := by
      have h := serial_addYears_ge (y + 1) n (by omega)
      rw [hAdef] at h
      exact h
    have hshift : ∀ k : ℕ, y + (k + 1) = yA + k := fun k => by omega
    have hyA : 1901 ≤ yA := by omega
    rw [show y + (n + 1) = yA + n from by omega,
      show xldate_from_date_tuple (y + 1) 1 1 = xldate_from_date_tuple yA 1 1
        from by rw [hAdef],
      if_neg (by omega), ih yA (i + 1) f hyA (by omega)]
    simp only [Option.some_bind]
    by_cases hmaj : i % N = 0
    · have hp0 : (fun k => decide ((i + k) % N = 0)) 0 = true := by
        show decide ((i + 0) % N = 0) = true
        rw [Nat.add_zero, hmaj]
        rfl
      have hfilt : (List.range (n + 1 + 1)).filter
            (fun k => decide ((i + k) % N = 0))
          = 0 :: ((List.range (n + 1)).filter
              (fun k => decide ((i + 1 + k) % N = 0))).map Nat.succ := by
        rw [List.range_succ_eq_map (n + 1), List.filter_cons, List.filter_map,
          if_pos hp0]
        refine congrArg (fun l => 0 :: List.map Nat.succ l) ?_
        exact List.filter_congr fun k _ => by
          show decide ((i + Nat.succ k) % N = 0)
            = decide ((i + 1 + k) % N = 0)
          rw [show i + Nat.succ k = i + 1 + k from by omega]
      rw [if_pos hmaj, hfilt, List.range_succ_eq_map (n + 1)]
      simp only [List.map_cons, List.map_map, Function.comp_def,
        Nat.succ_eq_add_one, Nat.add_zero, hshift]
    · have hp0 : ¬ ((fun k => decide ((i + k) % N = 0)) 0 = true) := by
        intro hc
        refine hmaj ?_
        have hc2 : decide ((i + 0) % N = 0) = true := hc
        rw [Nat.add_zero] at hc2
        exact of_decide_eq_true hc2
      have hfilt : (List.range (n + 1 + 1)).filter
            (fun k => decide ((i + k) % N = 0))
          = ((List.range (n + 1)).filter
              (fun k => decide ((i + 1 + k) % N = 0))).map Nat.succ := by
        rw [List.range_succ_eq_map (n + 1), List.filter_cons, List.filter_map,
          if_neg hp0]
        refine congrArg (List.map Nat.succ) ?_
        exact List.filter_congr fun k _ => by
          show decide ((i + Nat.succ k) % N = 0)
            = decide ((i + 1 + k) % N = 0)
          rw [show i + Nat.succ k = i + 1 + k from by omega]
      rw [if_neg hmaj, hfilt, List.range_succ_eq_map (n + 1)]
      simp only [List.map_cons, List.map_map, Function.comp_def,
        Nat.succ_eq_add_one, Nat.add_zero, hshift]

theorem monthSteps_addMonths (y m n : ℕ) (hm1 : 1 ≤ m) :
    n + 1 = monthSteps y m (addMonths y m n).1 (addMonths y m n).2 := by
  simp only [addMonths, monthSteps]
  omega

/-- **C6**: over fitted bounds (the first-of-month dates produced by
`best_fit_time`), the tick walk of `make_xticks_info` emits one minor tick
at each calendar step from the start date through the end date's boundary
step inclusive — one month per step in month mode, one year per step in
year mode — so the minor-tick count equals the number of calendar steps
between the bounds inclusive (`monthSteps`); and it emits a major labeled
tick exactly at every `pattern`-th step, 0-indexed (the first step is
major), the label being the localized short month name, an apostrophe and
the 2-digit year in month mode and the 4-digit year in year mode. -/
theorem make_xticks_minor_major_stride (y m n N : ℕ) (language : String)
    (hy : 1901 ≤ y) (hm1 : 1 ≤ m) (hm12 : m ≤ 12) (hN : 1 ≤ N) :
    (make_xticks_info (xldate_from_date_tuple y m 1)
        (xldate_from_date_tuple (addMonths y m n).1 (addMonths y m n).2 1)
        N "Month" language
      = some
        ((((List.range (n + 1)).filter fun k => decide (k % N = 0)).map
            fun k => xldate_from_date_tuple (addMonths y m k).1
              (addMonths y m k).2 1),
         (((List.range (n + 1)).filter fun k => decide (k % N = 0)).map
            fun k => month_label language (addMonths y m k).1
              (addMonths y m k).2),
         ((List.range (n + 1)).map fun k =>
            xldate_from_date_tuple (addMonths y m k).1 (addMonths y m k).2 1))
      ∧ n + 1 = monthSteps y m (addMonths y m n).1 (addMonths y m n).2)
    ∧ (make_xticks_info (xldate_from_date_tuple y 1 1)
        (xldate_from_date_tuple (y + n) 1 1) N "Year" language
      = some
        ((((List.range (n + 1)).filter fun k => decide (k % N = 0)).map
            fun k => xldate_from_date_tuple (y + k) 1 1),
         (((List.range (n + 1)).filter fun k => decide (k % N = 0)).map
            fun k => toString (y + k)),
         ((List.range (n + 1)).map fun k =>
            xldate_from_date_tuple (y + k) 1 1))) := by
  refine ⟨⟨?_, monthSteps_addMonths y m n hm1⟩, ?_⟩
  · have hgrow := serial_addMonths_ge y m n (by omega) hm1 hm12
    have h := aux_month_spec N language n y m 0
      (xldate_from_date_tuple (addMonths y m n).1 (addMonths y m n).2 1 + 2
        - xldate_from_date_tuple y m 1) hy hm1 hm12 (by omega)
    simp only [Nat.zero_add] at h
    exact h
  · have hgrow := serial_addYears_ge y n (by omega)
    have h := aux_year_spec N language n y 0
      (xldate_from_date_tuple (y + n) 1 1 + 2 - xldate_from_date_tuple y 1 1)
      hy (by omega)
    simp only [Nat.zero_add] at h
    exact h

/-- Witness for C6: walking 2000-01-01..2000-03-01 by months and
2000-01-01..2002-01-01 by years with stride 2 gives three minor ticks and
majors with labels at steps 0 and 2. -/
theorem make_xticks_minor_major_stride_witness :
    make_xticks_info 36526 36586 2 "Month" "english"
        = some ([36526, 36586], ["JAN \x2700", "MAR \x2700"],
            [36526, 36557, 36586])
      ∧ make_xticks_info 36526 37257 2 "Year" "english"
        = some ([36526, 37257], ["2000", "2002"],
            [36526, 36892, 37257]) := by
  have h := make_xticks_minor_major_stride 2000 1 2 2 "english"
    (by norm_num) (by norm_num) (by norm_num) (by norm_num)
  constructor
  · have h1 := h.1.1
    rw [show xldate_from_date_tuple 2000 1 1 = 36526 from by decide,
      show xldate_from_date_tuple (addMonths 2000 1 2).1
        (addMonths 2000 1 2).2 1 = 36586 from by decide] at h1
    rw [h1]
    decide
  · have h2 := h.2
    rw [show xldate_from_date_tuple 2000 1 1 = 36526 from by decide,
      show xldate_from_date_tuple (2000 + 2) 1 1 = 37257 from by decide] at h2
    rw [h2]
    decide

end What

